import Mathlib

/-!
Verification development for the hexagonal tile-matching puzzle engine
(`hecknsic`).  The JavaScript sources under `src/js/` are shallowly embedded:
the grid is a function from integer `(col, row)` pairs to optional cells,
imperative in-place mutation becomes functional update, and the unseeded
`Math.random` calls are abstracted into explicit random-stream parameters.
All definitions follow the JavaScript line by line; theorems settle the
spec claims about them.
-/

namespace Hecknsic

/-- The `special` tag of a cell (`cell.special` in the source; `null` is
modelled as `Option.none`). -/
inductive Special where
  | starflower
  | blackpearl
  | bomb
  | multiplier
deriving DecidableEq, Repr

/-- A grid cell: `{ colorIndex, special, bombTimer }` as in `board.js`.
A missing `bombTimer` property is `none`. -/
structure Cell where
  colorIndex : Int
  special : Option Special
  bombTimer : Option Int
deriving DecidableEq, Repr

/-- A board position `(col, row)`. -/
abbrev Pos := Int × Int

/-- The grid: a mapping from positions to optional cells (`grid[col][row]`,
with `null` as `none`). -/
abbrev Grid := Pos → Option Cell

/-- Functional update of a single grid slot (in-place mutation in JS). -/
def update (g : Grid) (p : Pos) (v : Option Cell) : Grid :=
  fun q => if q = p then v else g q

@[simp] theorem update_same (g : Grid) (p : Pos) (v : Option Cell) :
    update g p v p = v := by simp [update]

theorem update_other (g : Grid) (p q : Pos) (v : Option Cell) (h : q ≠ p) :
    update g p v q = g q := by simp [update, h]

-- ─── Constants (constants.js) ───────────────────────────────────

def GRID_COLS : Int := 9
def GRID_ROWS : Int := 9
def BOMB_INITIAL_TIMER : Int := 15

/-- `SCORE_BASE = { 3: 5, 4: 10, 5: 20 }` from constants.js, as a partial
lookup table. -/
def SCORE_BASE (n : Nat) : Option ℚ :=
  if n = 3 then some 5 else if n = 4 then some 10 else if n = 5 then some 20 else none

def CHAIN_MULTIPLIER_BASE : ℚ := 3 / 2

-- ─── hex-math.js ────────────────────────────────────────────────

/-- `offsetToAxial(col,row)` from hex-math.js: `q = col`,
`r = row - (col - (col & 1)) / 2`.  JS `col & 1` on a (two's-complement)
integer equals `col % 2` with `Int.emod` (both give `1` for odd negatives). -/
def offsetToAxial (col row : Int) : Int × Int :=
  (col, row - (col - col % 2) / 2)

/-- `axialToOffset(q,r)` from hex-math.js: `col = q`,
`row = r + (q - (q & 1)) / 2`. -/
def axialToOffset (q r : Int) : Int × Int :=
  (q, r + (q - q % 2) / 2)

/-- Neighbor delta table for even columns (`NEIGHBORS_EVEN`). -/
def NEIGHBORS_EVEN : List (Int × Int) :=
  [(1, 0), (1, -1), (0, -1), (-1, -1), (-1, 0), (0, 1)]

/-- Neighbor delta table for odd columns (`NEIGHBORS_ODD`). -/
def NEIGHBORS_ODD : List (Int × Int) :=
  [(1, 1), (1, 0), (0, -1), (-1, 0), (-1, 1), (0, 1)]

/-- `getNeighbors(col,row)`: pick the delta table by column parity and add
the deltas. -/
def getNeighbors (col row : Int) : List Pos :=
  (if col % 2 = 0 then NEIGHBORS_EVEN else NEIGHBORS_ODD).map
    (fun d => (col + d.1, row + d.2))

/-- `a` is adjacent to `b` when `b` occurs in `a`'s neighbor list. -/
def adjacent (a b : Pos) : Prop := b ∈ getNeighbors a.1 a.2

instance (a b : Pos) : Decidable (adjacent a b) := by
  unfold adjacent; infer_instance

/-- Bounds check `0 ≤ col < GRID_COLS && 0 ≤ row < GRID_ROWS` (the `inBounds`
helpers of hex-math.js / specials.js / main.js). -/
def inBounds (p : Pos) : Bool :=
  0 ≤ p.1 && p.1 < GRID_COLS && 0 ≤ p.2 && p.2 < GRID_ROWS

theorem inBounds_iff (p : Pos) :
    inBounds p = true ↔ 0 ≤ p.1 ∧ p.1 < 9 ∧ 0 ≤ p.2 ∧ p.2 < 9 := by
  simp [inBounds, GRID_COLS, GRID_ROWS, and_assoc]

/-- All 81 board positions in the scan order of the nested
`for (c) for (r)` loops. -/
def allPositions : List Pos :=
  (List.range 9).flatMap fun c => (List.range 9).map fun r => ((c : Int), (r : Int))

theorem mem_allPositions (p : Pos) :
    p ∈ allPositions ↔ 0 ≤ p.1 ∧ p.1 < 9 ∧ 0 ≤ p.2 ∧ p.2 < 9 := by
  obtain ⟨c, r⟩ := p
  simp [allPositions, List.mem_flatMap, List.mem_map, List.mem_range, Prod.ext_iff]
  constructor
  · rintro ⟨a, ha, ⟨b, hb, rfl⟩, rfl⟩
    omega
  · rintro ⟨h1, h2, h3, h4⟩
    exact ⟨c.toNat, by omega, ⟨r.toNat, by omega, by omega⟩, by omega⟩

theorem inBounds_mem_allPositions (p : Pos) (h : inBounds p = true) :
    p ∈ allPositions := by
  rw [mem_allPositions]; exact (inBounds_iff p).mp h

/-- `getNeighbors` on an even column, with the deltas written out. -/
theorem getNeighbors_even (col row : Int) (h : col % 2 = 0) :
    getNeighbors col row =
      [(col + 1, row), (col + 1, row - 1), (col, row - 1),
       (col - 1, row - 1), (col - 1, row), (col, row + 1)] := by
  simp only [getNeighbors, h, if_pos, NEIGHBORS_EVEN, List.map_cons, List.map_nil,
    List.cons.injEq, Prod.mk.injEq, and_true]
  norm_num
  all_goals omega

/-- `getNeighbors` on an odd column, with the deltas written out. -/
theorem getNeighbors_odd (col row : Int) (h : col % 2 = 1) :
    getNeighbors col row =
      [(col + 1, row + 1), (col + 1, row), (col, row - 1),
       (col - 1, row), (col - 1, row + 1), (col, row + 1)] := by
  have h0 : ¬ (col % 2 = 0) := by omega
  simp only [getNeighbors, h0, if_false, NEIGHBORS_ODD, List.map_cons, List.map_nil,
    List.cons.injEq, Prod.mk.injEq, and_true]
  norm_num
  all_goals omega

theorem getNeighbors_length (col row : Int) : (getNeighbors col row).length = 6 := by
  rcases Int.emod_two_eq col with h | h
  · rw [getNeighbors_even col row h]; rfl
  · rw [getNeighbors_odd col row h]; rfl

theorem getNeighbors_nodup (col row : Int) : (getNeighbors col row).Nodup := by
  rcases Int.emod_two_eq col with h | h
  · rw [getNeighbors_even col row h]
    simp [Prod.mk.injEq]
    omega
  · rw [getNeighbors_odd col row h]
    simp [Prod.mk.injEq]
    omega

theorem self_not_mem_getNeighbors (col row : Int) :
    (col, row) ∉ getNeighbors col row := by
  rcases Int.emod_two_eq col with h | h
  · rw [getNeighbors_even col row h]
    simp [Prod.mk.injEq]
    omega
  · rw [getNeighbors_odd col row h]
    simp [Prod.mk.injEq]
    omega

/-- Purely arithmetic characterization of neighbor-list membership: `p` is a
neighbor of `(col,row)` iff its offset from `(col,row)` is one of the six
deltas of the parity-selected table. -/
theorem mem_getNeighbors_iff (col row : Int) (p : Pos) :
    p ∈ getNeighbors col row ↔
      (col % 2 = 0 ∧
        ((p.1 = col + 1 ∧ p.2 = row) ∨ (p.1 = col + 1 ∧ p.2 = row - 1) ∨
         (p.1 = col ∧ p.2 = row - 1) ∨ (p.1 = col - 1 ∧ p.2 = row - 1) ∨
         (p.1 = col - 1 ∧ p.2 = row) ∨ (p.1 = col ∧ p.2 = row + 1))) ∨
      (col % 2 = 1 ∧
        ((p.1 = col + 1 ∧ p.2 = row + 1) ∨ (p.1 = col + 1 ∧ p.2 = row) ∨
         (p.1 = col ∧ p.2 = row - 1) ∨ (p.1 = col - 1 ∧ p.2 = row) ∨
         (p.1 = col - 1 ∧ p.2 = row + 1) ∨ (p.1 = col ∧ p.2 = row + 1))) := by
  obtain ⟨x, y⟩ := p
  rcases Int.emod_two_eq col with h | h
  · rw [getNeighbors_even col row h]
    simp only [List.mem_cons, List.not_mem_nil, or_false, Prod.mk.injEq]
    simp [h]
  · rw [getNeighbors_odd col row h]
    simp only [List.mem_cons, List.not_mem_nil, or_false, Prod.mk.injEq]
    simp [h]

/-- Hex adjacency is symmetric: if `b` is in `a`'s neighbor list then `a` is
in `b`'s neighbor list. -/
theorem adjacent_symm {a b : Pos} (h : adjacent a b) : adjacent b a := by
  obtain ⟨c, r⟩ := a
  obtain ⟨c', r'⟩ := b
  simp only [adjacent, mem_getNeighbors_iff] at h ⊢
  rcases h with ⟨hp, h⟩ | ⟨hp, h⟩ <;>
    rcases h with ⟨h1, h2⟩ | ⟨h1, h2⟩ | ⟨h1, h2⟩ | ⟨h1, h2⟩ | ⟨h1, h2⟩ | ⟨h1, h2⟩ <;>
    omega

/-- Consecutive entries of the neighbor table, together with the center, are
pairwise mutually adjacent (the clockwise-ordering ABI guarantee). -/
theorem consecutiveNeighbors_adjacent (col row : Int) (i : Fin 6) :
    adjacent (col, row) ((getNeighbors col row).getD i (0, 0)) ∧
    adjacent ((getNeighbors col row).getD i (0, 0)) (col, row) ∧
    adjacent (col, row) ((getNeighbors col row).getD (((i : Nat) + 1) % 6) (0, 0)) ∧
    adjacent ((getNeighbors col row).getD (((i : Nat) + 1) % 6) (0, 0)) (col, row) ∧
    adjacent ((getNeighbors col row).getD i (0, 0))
      ((getNeighbors col row).getD (((i : Nat) + 1) % 6) (0, 0)) ∧
    adjacent ((getNeighbors col row).getD (((i : Nat) + 1) % 6) (0, 0))
      ((getNeighbors col row).getD i (0, 0)) := by
  rcases Int.emod_two_eq col with h | h
  · rw [getNeighbors_even col row h]
    fin_cases i <;>
      simp only [adjacent, mem_getNeighbors_iff, Fin.isValue, Fin.val_zero, Fin.val_one,
        List.getD_cons_zero, List.getD_cons_succ, List.getD, List.get?] <;>
      norm_num <;> omega
  · rw [getNeighbors_odd col row h]
    fin_cases i <;>
      simp only [adjacent, mem_getNeighbors_iff, Fin.isValue, Fin.val_zero, Fin.val_one,
        List.getD_cons_zero, List.getD_cons_succ, List.getD, List.get?] <;>
      norm_num <;> omega

-- ─── score.js ───────────────────────────────────────────────────

/-- The module-level score state of score.js. -/
structure ScoreState where
  score : Int
  chainLevel : Nat
  comboCount : Nat
deriving DecidableEq, Repr

/-- `awardMatch(matchSize, bonusMultiplier)` from score.js:
`base = SCORE_BASE[matchSize] ?? matchSize * 10`,
`points = Math.round(base * CHAIN_MULTIPLIER_BASE ** chainLevel * bonusMultiplier)`,
then `score += points; comboCount++`.  Returns the new state and the points.
JS `Math.round` is `⌊x + 1/2⌋`, which is Mathlib's `round` on `ℚ`. -/
def awardMatch (st : ScoreState) (matchSize : Nat) (bonusMultiplier : ℚ) :
    ScoreState × Int :=
  let base : ℚ := (SCORE_BASE matchSize).getD ((matchSize : ℚ) * 10)
  let multiplier : ℚ := CHAIN_MULTIPLIER_BASE ^ st.chainLevel * bonusMultiplier
  let points : Int := round (base * multiplier)
  ({ st with score := st.score + points, comboCount := st.comboCount + 1 }, points)

/-- `advanceChain()` from score.js. -/
def advanceChain (st : ScoreState) : ScoreState :=
  { st with chainLevel := st.chainLevel + 1 }

/-- `resetChain()` from score.js. -/
def resetChain (st : ScoreState) : ScoreState :=
  { st with chainLevel := 0, comboCount := 0 }

-- ─── board.js: findTriangleMatches ──────────────────────────────

/-- The `(C, B, D)` triples collected by `findTriangleMatches` in board.js:
for each non-empty, non-starflower, non-blackpearl cell `C` and each
`i ∈ 0..5`, the pair `B = nbrs[i]`, `D = nbrs[(i+1) % 6]` is kept when both
are in bounds, non-empty, non-blocker, and share `C`'s color. -/
def triangleTriples (g : Grid) : List (Pos × Pos × Pos) :=
  allPositions.flatMap fun p =>
    match g p with
    | none => []
    | some cell =>
      if cell.special = some .starflower then []
      else if cell.special = some .blackpearl then []
      else
        (List.range 6).filterMap fun i =>
          let nbrs := getNeighbors p.1 p.2
          let B := nbrs.getD i (0, 0)
          let D := nbrs.getD ((i + 1) % 6) (0, 0)
          if inBounds B = true ∧ inBounds D = true then
            match g B, g D with
            | some cellB, some cellD =>
              if cellB.special = some .starflower ∨ cellB.special = some .blackpearl then none
              else if cellD.special = some .starflower ∨ cellD.special = some .blackpearl then
                none
              else if cellB.colorIndex = cell.colorIndex ∧ cellD.colorIndex = cell.colorIndex
              then some (p, B, D)
              else none
            | _, _ => none
          else none

/-- `findTriangleMatches(grid)` from board.js: the keys of all cells that
participate in some triangle triple. -/
def findTriangleMatches (g : Grid) : List Pos :=
  (triangleTriples g).flatMap fun t => [t.1, t.2.1, t.2.2]

-- ─── board.js: findMatches (line matcher) ───────────────────────

/-- The three scan axes of board.js (`axialDirections`). -/
def axialDirections : List (Int × Int) := [(1, 0), (0, 1), (1, -1)]

/-- The inner `for (step …)` walk of `findMatches`: starting from axial
`(q, rr)`, walk `step, step+1, …` in direction `dir`, collecting offset
positions while they are in bounds, non-empty, and of the run color.
`fuel` counts the remaining iterations (`step < max(cols,rows)` gives 8). -/
def axialPos (q rr : Int) (dir : Int × Int) (step : Nat) : Pos :=
  let nq := q + dir.1 * (step : Int)
  let nr := rr + dir.2 * (step : Int)
  (nq, nr + (nq - nq % 2) / 2)

def runExt (g : Grid) (color q rr : Int) (dir : Int × Int) : Nat → Nat → List Pos
  | _, 0 => []
  | step, fuel + 1 =>
    let p := axialPos q rr dir step
    if p.1 < 0 ∨ GRID_COLS ≤ p.1 ∨ p.2 < 0 ∨ GRID_ROWS ≤ p.2 then []
    else
      match g p with
      | none => []
      | some cell =>
        if cell.colorIndex = color then p :: runExt g color q rr dir (step + 1) fuel
        else []

/-- `findMatches(grid)` from board.js: for every non-empty, non-starflower,
non-blackpearl cell, walk each axial direction; runs of length ≥ 3
contribute all their cells. -/
def findMatches (g : Grid) : List Pos :=
  allPositions.flatMap fun p =>
    match g p with
    | none => []
    | some cell =>
      if cell.special = some .starflower then []
      else if cell.special = some .blackpearl then []
      else
        axialDirections.flatMap fun dir =>
          let run := p :: runExt g cell.colorIndex p.1 (p.2 - (p.1 - p.1 % 2) / 2) dir 1 8
          if 3 ≤ run.length then run else []

/-- The Cell invariants of spec §3 for one slot: a starflower has color −1,
a black pearl has color −2, and any other cell has a nonnegative color. -/
def cellInvariant : Option Cell → Prop
  | none => True
  | some c =>
      (c.special = some Special.starflower → c.colorIndex = -1) ∧
      (c.special = some Special.blackpearl → c.colorIndex = -2) ∧
      (c.special ≠ some Special.starflower → c.special ≠ some Special.blackpearl →
        0 ≤ c.colorIndex)

instance (oc : Option Cell) : Decidable (cellInvariant oc) := by
  rcases oc with _ | c
  · exact isTrue trivial
  · unfold cellInvariant
    infer_instance

-- ════════════════════════════════════════════════════════════════
-- C8: offset↔axial round trip
-- ════════════════════════════════════════════════════════════════

/-- C8: `offset_to_axial` and `axial_to_offset` are mutually inverse on all
integer pairs: converting offset→axial→offset and axial→offset→axial are
both the identity. -/
theorem offsetToAxial_axialToOffset_roundtrip :
    (∀ col row : Int,
      axialToOffset (offsetToAxial col row).1 (offsetToAxial col row).2 = (col, row)) ∧
    (∀ q r : Int,
      offsetToAxial (axialToOffset q r).1 (axialToOffset q r).2 = (q, r)) := by
  constructor
  · intro col row
    simp only [offsetToAxial, axialToOffset, Prod.mk.injEq]
    exact ⟨trivial, by omega⟩
  · intro q r
    simp only [offsetToAxial, axialToOffset, Prod.mk.injEq]
    exact ⟨trivial, by omega⟩

-- ════════════════════════════════════════════════════════════════
-- C6: neighbor-table adjacency and triangle matches
-- ════════════════════════════════════════════════════════════════

/-- C6: for every `(col,row)` and every `i ∈ 0..5`, the neighbor entries
`neighbors[i]` and `neighbors[(i+1) % 6]` are mutually adjacent (each occurs
in the other's neighbor list) and both are mutually adjacent with `(col,row)`;
consequently every triple `(C,B,D)` collected by `findTriangleMatches` is a
genuine triangle: three pairwise mutually adjacent cells of one color. -/
theorem neighbors_consecutive_adjacent_and_triangles :
    (∀ (col row : Int) (i : Fin 6),
      adjacent (col, row) ((getNeighbors col row).getD i (0, 0)) ∧
      adjacent ((getNeighbors col row).getD i (0, 0)) (col, row) ∧
      adjacent (col, row) ((getNeighbors col row).getD (((i : Nat) + 1) % 6) (0, 0)) ∧
      adjacent ((getNeighbors col row).getD (((i : Nat) + 1) % 6) (0, 0)) (col, row) ∧
      adjacent ((getNeighbors col row).getD i (0, 0))
        ((getNeighbors col row).getD (((i : Nat) + 1) % 6) (0, 0)) ∧
      adjacent ((getNeighbors col row).getD (((i : Nat) + 1) % 6) (0, 0))
        ((getNeighbors col row).getD i (0, 0))) ∧
    (∀ (g : Grid) (t : Pos × Pos × Pos), t ∈ triangleTriples g →
      (adjacent t.1 t.2.1 ∧ adjacent t.2.1 t.1 ∧
       adjacent t.1 t.2.2 ∧ adjacent t.2.2 t.1 ∧
       adjacent t.2.1 t.2.2 ∧ adjacent t.2.2 t.2.1) ∧
      ∃ cC cB cD : Cell, g t.1 = some cC ∧ g t.2.1 = some cB ∧ g t.2.2 = some cD ∧
        cB.colorIndex = cC.colorIndex ∧ cD.colorIndex = cC.colorIndex) := by
  refine ⟨consecutiveNeighbors_adjacent, ?_⟩
  intro g t ht
  simp only [triangleTriples, List.mem_flatMap] at ht
  obtain ⟨p, hp, ht⟩ := ht
  obtain ⟨pc, pr⟩ := p
  rcases hgp : g (pc, pr) with _ | cell <;> rw [hgp] at ht <;> try dsimp only at ht
  · simp at ht
  · split_ifs at ht with h1 h2
    · simp at ht
    · simp at ht
    · rw [List.mem_filterMap] at ht
      obtain ⟨i, hi, hfeq⟩ := ht
      rw [List.mem_range] at hi
      try dsimp only at hfeq
      split_ifs at hfeq with hbnd
      rcases hB : g ((getNeighbors pc pr).getD i (0, 0)) with _ | cellB <;>
        rw [hB] at hfeq
      · simp at hfeq
      rcases hD : g ((getNeighbors pc pr).getD ((i + 1) % 6) (0, 0)) with _ | cellD <;>
        rw [hD] at hfeq
      · simp at hfeq
      try dsimp only at hfeq
      split_ifs at hfeq with hs1 hs2 hcol
      have hteq : ((pc, pr), (getNeighbors pc pr).getD i (0, 0),
          (getNeighbors pc pr).getD ((i + 1) % 6) (0, 0)) = t := Option.some.inj hfeq
      subst hteq
      have hadj := consecutiveNeighbors_adjacent pc pr ⟨i, hi⟩
      refine ⟨⟨hadj.1, hadj.2.1, hadj.2.2.1, hadj.2.2.2.1, hadj.2.2.2.2.1,
        hadj.2.2.2.2.2⟩, cell, cellB, cellD, hgp, hB, hD, hcol.1, hcol.2⟩

/-- Witness for C6: the triangle clause instantiated on the all-color-0 board,
where `((0,0),(0,1),(1,0))` is a collected triple. -/
theorem neighbors_consecutive_adjacent_and_triangles_witness :
    adjacent ((4 : Int), (4 : Int)) ((getNeighbors 4 4).getD (0 : Fin 6) (0, 0)) ∧
    (adjacent ((0, 0) : Pos) ((0, 1) : Pos) ∧
      ∃ cC cB cD : Cell,
        (fun _ : Pos => some (⟨0, none, none⟩ : Cell)) ((0 : Int), (0 : Int)) = some cC ∧
        (fun _ : Pos => some (⟨0, none, none⟩ : Cell)) ((0 : Int), (1 : Int)) = some cB ∧
        (fun _ : Pos => some (⟨0, none, none⟩ : Cell)) ((1 : Int), (0 : Int)) = some cD ∧
        cB.colorIndex = cC.colorIndex ∧ cD.colorIndex = cC.colorIndex) := by
  constructor
  · exact (neighbors_consecutive_adjacent_and_triangles.1 4 4 0).1
  · have h := neighbors_consecutive_adjacent_and_triangles.2
      (fun _ : Pos => some (⟨0, none, none⟩ : Cell))
      (((0 : Int), (0 : Int)), ((0 : Int), (1 : Int)), ((1 : Int), (0 : Int)))
      (by decide)
    exact ⟨h.1.1, h.2⟩

-- ════════════════════════════════════════════════════════════════
-- C3: awardMatch formula
-- ════════════════════════════════════════════════════════════════

/-- C3: for every match size `n ≥ 3` and bonus multiplier `b`, `awardMatch`
returns `round(base(n) · 1.5^chainLevel · b)` with `base(3)=5`, `base(4)=10`,
`base(5)=20` and `base(n)=10·n` for `n>5`; it adds exactly that amount to the
score and increments the combo count by exactly 1. -/
theorem awardMatch_spec (st : ScoreState) (n : Nat) (hn : 3 ≤ n) (b : ℚ) :
    (awardMatch st n b).2 =
      round ((if n = 3 then (5 : ℚ) else if n = 4 then 10 else if n = 5 then 20
              else (n : ℚ) * 10) * (3 / 2) ^ st.chainLevel * b) ∧
    (awardMatch st n b).1.score = st.score + (awardMatch st n b).2 ∧
    (awardMatch st n b).1.comboCount = st.comboCount + 1 := by
  refine ⟨?_, rfl, rfl⟩
  simp only [awardMatch, SCORE_BASE, CHAIN_MULTIPLIER_BASE]
  rcases Nat.lt_or_ge n 6 with h6 | h6
  · interval_cases n <;> simp [mul_assoc]
  · have h3 : n ≠ 3 := by omega
    have h4 : n ≠ 4 := by omega
    have h5 : n ≠ 5 := by omega
    simp [h3, h4, h5, mul_assoc]

/-- Witness for C3: at `n = 4`, `chainLevel = 1`, `b = 2` the award is
`round(10 · 1.5 · 2) = 30`. -/
theorem awardMatch_spec_witness :
    (awardMatch ⟨0, 1, 0⟩ 4 2).2 =
      round ((if 4 = 4 then (10 : ℚ) else 0) * (3 / 2) ^ 1 * 2) ∧
    (awardMatch ⟨0, 1, 0⟩ 4 2).2 = 30 := by
  have h := awardMatch_spec ⟨0, 1, 0⟩ 4 (by decide) 2
  refine ⟨by simpa using h.1, ?_⟩
  have := h.1
  simp only [show (4 : Nat) ≠ 3 by decide, if_false, if_pos rfl] at this
  rw [this]
  norm_num [round_eq]

-- ════════════════════════════════════════════════════════════════
-- C7: findMatches never returns starflower / black-pearl keys
-- ════════════════════════════════════════════════════════════════

/-- Every position collected by the run walk is on the board, holds a cell,
and that cell has exactly the run color. -/
theorem mem_runExt {g : Grid} {color q rr : Int} {dir : Int × Int} :
    ∀ {fuel step : Nat} {x : Pos}, x ∈ runExt g color q rr dir step fuel →
      x ∈ allPositions ∧ ∃ c : Cell, g x = some c ∧ c.colorIndex = color := by
  intro fuel
  induction fuel with
  | zero => intro step x hx; simp [runExt] at hx
  | succ n ih =>
    intro step x hx
    simp only [runExt] at hx
    split_ifs at hx with hb
    · simp at hx
    · rcases hc : g (axialPos q rr dir step) with _ | cell <;> rw [hc] at hx <;>
        try dsimp only at hx
      · simp at hx
      · split_ifs at hx with hcol
        · rcases List.mem_cons.mp hx with rfl | hx'
          · refine ⟨?_, cell, hc, hcol⟩
            rw [mem_allPositions]
            simp only [GRID_COLS, GRID_ROWS] at hb
            omega
          · exact ih hx'
        · simp at hx

/-- C7: on any board satisfying the §3 cell invariants (starflower color −1,
black pearl color −2, all other cells color ≥ 0), `findMatches` returns no
key whose cell is a starflower or a black pearl — neither as a run start nor
as a cell collected while extending a run. -/
theorem findMatches_no_starflower_no_blackpearl (g : Grid)
    (hinv : ∀ p ∈ allPositions, cellInvariant (g p)) :
    ∀ p ∈ findMatches g, ∀ c : Cell, g p = some c →
      c.special ≠ some Special.starflower ∧ c.special ≠ some Special.blackpearl := by
  intro p hp c hc
  simp only [findMatches, List.mem_flatMap] at hp
  obtain ⟨p₀, hp₀, hp⟩ := hp
  rcases hg₀ : g p₀ with _ | cell₀ <;> rw [hg₀] at hp <;> try dsimp only at hp
  · simp at hp
  · split_ifs at hp with h1 h2
    · simp at hp
    · simp at hp
    · rw [List.mem_flatMap] at hp
      obtain ⟨dir, hdir, hp⟩ := hp
      split_ifs at hp with hlen
      swap
      · simp at hp
      have hcol₀ : 0 ≤ cell₀.colorIndex := by
        have hI := hinv p₀ hp₀
        rw [hg₀] at hI
        exact hI.2.2 h1 h2
      rcases List.mem_cons.mp hp with rfl | hp'
      · rw [hg₀] at hc
        cases Option.some.inj hc
        exact ⟨h1, h2⟩
      · obtain ⟨hmem, c', hc', hcol'⟩ := mem_runExt hp'
        rw [hc'] at hc
        cases Option.some.inj hc
        have hI := hinv p hmem
        rw [hc'] at hI
        constructor
        · intro hsf
          have := hI.1 hsf
          omega
        · intro hbp
          have := hI.2.1 hbp
          omega

set_option maxRecDepth 100000 in
/-- Witness for C7: the all-color-0 board satisfies the invariant, `(0,0)`
is a member of its (everywhere-matching) line matches, and the theorem
gives that its cell is neither a starflower nor a black pearl. -/
theorem findMatches_no_starflower_no_blackpearl_witness :
    (⟨0, none, none⟩ : Cell).special ≠ some Special.starflower ∧
    (⟨0, none, none⟩ : Cell).special ≠ some Special.blackpearl :=
  findMatches_no_starflower_no_blackpearl
    (fun _ : Pos => some (⟨0, none, none⟩ : Cell)) (by decide)
    ((0 : Int), (0 : Int)) (by decide) ⟨0, none, none⟩ rfl

-- ─── specials.js: starflower and black-pearl detection ──────────

/-- A `{center, ring, ringColor}` descriptor from `detectStarflowers` /
`detectStarflowersAtCleared`. -/
structure SFDescr where
  center : Pos
  ring : List Pos
  ringColor : Int
deriving DecidableEq, Repr

/-- A `{center, ring}` descriptor from `detectBlackPearls`. -/
structure BPDescr where
  center : Pos
  ring : List Pos
deriving DecidableEq, Repr

/-- `colorIndex` of an optional cell.  Every use site is guarded so the cell
is present (JS would throw on `null` there); the `none` value is arbitrary. -/
def colorOf : Option Cell → Int
  | some c => c.colorIndex
  | none => -99

/-- Ring-membership test of `detectStarflowers`: in bounds, non-empty,
neither starflower nor black pearl. -/
def sfRingOk (g : Grid) (n : Pos) : Bool :=
  inBounds n &&
    match g n with
    | none => false
    | some c => !(c.special == some Special.starflower) &&
        !(c.special == some Special.blackpearl)

/-- One iteration of the `detectStarflowers` scan at position `p`
(specials.js lines 79–103), threading the mutated grid and the result list. -/
def sfStep (g : Grid) (res : List SFDescr) (p : Pos) : Grid × List SFDescr :=
  match g p with
  | none => (g, res)
  | some cell =>
    if cell.special = some Special.starflower ∨ cell.special = some Special.blackpearl then
      (g, res)
    else
      let valid := (getNeighbors p.1 p.2).filter (sfRingOk g)
      if valid.length = 6 then
        let ringColor := colorOf (g (valid.getD 0 (0, 0)))
        if 0 ≤ ringColor ∧ ringColor ≠ cell.colorIndex ∧
            valid.all (fun n => colorOf (g n) == ringColor) then
          (update g p (some ⟨-1, some Special.starflower, none⟩),
           res ++ [⟨p, valid, ringColor⟩])
        else (g, res)
      else (g, res)

/-- `detectStarflowers(grid)` from specials.js: mutating board scan in the
`for (c) for (r)` order. -/
def detectStarflowers (g : Grid) : Grid × List SFDescr :=
  allPositions.foldl (fun st p => sfStep st.1 st.2 p) (g, [])

/-- Ring-membership test of `detectBlackPearls`:
`inBounds(n) && grid[n]?.special === 'starflower'`. -/
def isStarflowerAt (g : Grid) (n : Pos) : Bool :=
  inBounds n &&
    match g n with
    | none => false
    | some c => c.special == some Special.starflower

/-- One iteration of the `detectBlackPearls` scan at position `p`
(specials.js lines 119–139). -/
def bpStep (g : Grid) (res : List BPDescr) (p : Pos) : Grid × List BPDescr :=
  match g p with
  | none => (g, res)
  | some cell =>
    if cell.special = some Special.blackpearl then (g, res)
    else
      let validStars := (getNeighbors p.1 p.2).filter (isStarflowerAt g)
      if validStars.length = 6 then
        (update g p (some ⟨-2, some Special.blackpearl, none⟩),
         res ++ [⟨p, validStars⟩])
      else (g, res)

/-- `detectBlackPearls(grid)` from specials.js. -/
def detectBlackPearls (g : Grid) : Grid × List BPDescr :=
  allPositions.foldl (fun st p => bpStep st.1 st.2 p) (g, [])

/-- Ring-membership test of `detectStarflowersAtCleared`: in bounds,
non-empty, not a starflower (black pearls are *not* excluded here), and not
itself in the cleared set. -/
def clearedRingOk (g : Grid) (cleared : List Pos) (n : Pos) : Bool :=
  inBounds n &&
    (match g n with
     | none => false
     | some c => !(c.special == some Special.starflower)) &&
    !(cleared.contains n)

/-- One iteration of `detectStarflowersAtCleared` for the key `p`
(specials.js lines 151–173).  The JS `if (grid[c][r] !== null) continue`
skips occupied in-bounds cells and (because an out-of-range row read gives
`undefined ≠ null`) also skips out-of-bounds keys. -/
def scStep (cleared : List Pos) (g : Grid) (res : List SFDescr) (p : Pos) :
    Grid × List SFDescr :=
  if inBounds p = true then
    match g p with
    | some _ => (g, res)
    | none =>
      let valid := (getNeighbors p.1 p.2).filter (clearedRingOk g cleared)
      if valid.length = 6 then
        let color := colorOf (g (valid.getD 0 (0, 0)))
        if 0 ≤ color ∧ valid.all (fun n => colorOf (g n) == color) then
          (update g p (some ⟨-1, some Special.starflower, none⟩),
           res ++ [⟨p, valid, color⟩])
        else (g, res)
      else (g, res)
  else (g, res)

/-- `detectStarflowersAtCleared(grid, clearedKeys)` from specials.js; the
cleared keys are iterated in insertion order. -/
def detectStarflowersAtCleared (g : Grid) (cleared : List Pos) :
    Grid × List SFDescr :=
  cleared.foldl (fun st p => scStep cleared st.1 st.2 p) (g, [])

-- ════════════════════════════════════════════════════════════════
-- C10: detection centers are strictly interior
-- ════════════════════════════════════════════════════════════════

/-- Generic invariant carrier for the detection scans: if every step only
appends descriptors satisfying `Q`, all final descriptors satisfy `Q`. -/
theorem foldl_append_invariant {α : Type} (Q : α → Prop)
    (step : Grid × List α → Pos → Grid × List α)
    (hstep : ∀ g res p, ∃ new : List α,
      (step (g, res) p).2 = res ++ new ∧ ∀ d ∈ new, Q d) :
    ∀ (l : List Pos) (g : Grid) (res : List α), (∀ d ∈ res, Q d) →
      ∀ d ∈ (l.foldl step (g, res)).2, Q d := by
  intro l
  induction l with
  | nil => intro g res hres d hd; exact hres d hd
  | cons p l ih =>
    intro g res hres d hd
    rw [List.foldl_cons] at hd
    obtain ⟨new, hnew, hQ⟩ := hstep g res p
    have hpair : step (g, res) p = ((step (g, res) p).1, res ++ new) := by
      rw [← hnew]
    rw [hpair] at hd
    refine ih _ _ ?_ d hd
    intro d' hd'
    rcases List.mem_append.mp hd' with h | h
    · exact hres d' h
    · exact hQ d' h

/-- A cell all of whose six neighbors are in bounds is strictly interior. -/
theorem allNeighborsInBounds_interior {c r : Int}
    (hn : ∀ n ∈ getNeighbors c r, inBounds n = true) :
    0 < c ∧ c < 8 ∧ 0 < r ∧ r < 8 := by
  have h1 := hn (c + 1, r) (by rw [mem_getNeighbors_iff]; dsimp only; omega)
  have h2 := hn (c - 1, r) (by rw [mem_getNeighbors_iff]; dsimp only; omega)
  have h3 := hn (c, r - 1) (by rw [mem_getNeighbors_iff]; dsimp only; omega)
  have h4 := hn (c, r + 1) (by rw [mem_getNeighbors_iff]; dsimp only; omega)
  rw [inBounds_iff] at h1 h2 h3 h4
  dsimp only at h1 h2 h3 h4
  omega

/-- The interior property of descriptor centers, as produced by a ring filter
of length 6 over a predicate that implies `inBounds`. -/
theorem filter_six_interior {c r : Int} {q : Pos → Bool}
    (hq : ∀ n, q n = true → inBounds n = true)
    (hlen : ((getNeighbors c r).filter q).length = 6) :
    0 < c ∧ c < 8 ∧ 0 < r ∧ r < 8 := by
  have hall : ∀ n ∈ getNeighbors c r, q n = true := by
    rw [← List.filter_length_eq_length]
    rw [hlen, getNeighbors_length]
  exact allNeighborsInBounds_interior fun n hn => hq n (hall n hn)

/-- C10: every descriptor returned by `detectStarflowers`,
`detectBlackPearls`, or `detectStarflowersAtCleared` has its center strictly
inside the 9×9 grid (`0 < col < 8` and `0 < row < 8`): each detection
requires exactly 6 in-bounds ring members, and border cells always have an
out-of-bounds neighbor. -/
theorem detection_centers_interior (g : Grid) :
    (∀ d ∈ (detectStarflowers g).2,
      0 < d.center.1 ∧ d.center.1 < 8 ∧ 0 < d.center.2 ∧ d.center.2 < 8) ∧
    (∀ d ∈ (detectBlackPearls g).2,
      0 < d.center.1 ∧ d.center.1 < 8 ∧ 0 < d.center.2 ∧ d.center.2 < 8) ∧
    (∀ cleared : List Pos, ∀ d ∈ (detectStarflowersAtCleared g cleared).2,
      0 < d.center.1 ∧ d.center.1 < 8 ∧ 0 < d.center.2 ∧ d.center.2 < 8) := by
  refine ⟨?_, ?_, ?_⟩
  · refine foldl_append_invariant
      (fun d : SFDescr => 0 < d.center.1 ∧ d.center.1 < 8 ∧ 0 < d.center.2 ∧ d.center.2 < 8)
      (fun st p => sfStep st.1 st.2 p) ?_ allPositions g [] (by simp)
    intro g' res p
    dsimp only
    unfold sfStep
    rcases hgp : g' p with _ | cell <;> try dsimp only
    · exact ⟨[], by simp, by simp⟩
    · split_ifs with h1 h2 h3
      · exact ⟨[], by simp, by simp⟩
      · refine ⟨_, rfl, ?_⟩
        intro d hd
        rcases List.mem_singleton.mp hd with rfl
        exact filter_six_interior
          (fun n hn => by
            unfold sfRingOk at hn
            rw [Bool.and_eq_true] at hn
            exact hn.1) h2
      · exact ⟨[], by simp, by simp⟩
      · exact ⟨[], by simp, by simp⟩
  · refine foldl_append_invariant
      (fun d : BPDescr => 0 < d.center.1 ∧ d.center.1 < 8 ∧ 0 < d.center.2 ∧ d.center.2 < 8)
      (fun st p => bpStep st.1 st.2 p) ?_ allPositions g [] (by simp)
    intro g' res p
    dsimp only
    unfold bpStep
    rcases hgp : g' p with _ | cell <;> try dsimp only
    · exact ⟨[], by simp, by simp⟩
    · split_ifs with h1 h2
      · exact ⟨[], by simp, by simp⟩
      · refine ⟨_, rfl, ?_⟩
        intro d hd
        rcases List.mem_singleton.mp hd with rfl
        exact filter_six_interior
          (fun n hn => by
            unfold isStarflowerAt at hn
            rw [Bool.and_eq_true] at hn
            exact hn.1) h2
      · exact ⟨[], by simp, by simp⟩
  · intro cleared
    refine foldl_append_invariant
      (fun d : SFDescr => 0 < d.center.1 ∧ d.center.1 < 8 ∧ 0 < d.center.2 ∧ d.center.2 < 8)
      (fun st p => scStep cleared st.1 st.2 p) ?_ cleared g [] (by simp)
    intro g' res p
    dsimp only
    unfold scStep
    rcases hgp : g' p with _ | cell <;> try dsimp only
    · split_ifs with h0 h1 h2
      · refine ⟨_, rfl, ?_⟩
        intro d hd
        rcases List.mem_singleton.mp hd with rfl
        exact filter_six_interior
          (fun n hn => by
            unfold clearedRingOk at hn
            rw [Bool.and_eq_true, Bool.and_eq_true] at hn
            exact hn.1.1) h1
      · exact ⟨[], by simp, by simp⟩
      · exact ⟨[], by simp, by simp⟩
      · exact ⟨[], by simp, by simp⟩
    · split_ifs with h0
      · exact ⟨[], by simp, by simp⟩
      · exact ⟨[], by simp, by simp⟩

/-- The six neighbors of `(4,4)` in table order (even column). -/
def ring44 : List Pos := [(5, 4), (5, 3), (4, 3), (3, 3), (3, 4), (4, 5)]

/-- Board with color 1 at `(4,4)` and color 0 elsewhere: a starflower birth. -/
def gStarEx : Grid := fun p =>
  if p = ((4 : Int), (4 : Int)) then some ⟨1, none, none⟩ else some ⟨0, none, none⟩

/-- Board with starflowers on the six neighbors of `(4,4)`: a pearl birth. -/
def gPearlEx : Grid := fun p =>
  if p ∈ ring44 then some ⟨-1, some Special.starflower, none⟩
  else some ⟨0, none, none⟩

/-- All-color-0 board with a hole at `(4,4)`: an at-cleared starflower birth. -/
def gClearEx : Grid := fun p =>
  if p = ((4 : Int), (4 : Int)) then none else some ⟨0, none, none⟩

set_option maxRecDepth 100000 in
/-- Witness for C10: each detector fires at center `(4,4)` on its example
board, and the theorem places that center strictly inside the grid. -/
theorem detection_centers_interior_witness :
    ((0 : Int) < 4 ∧ (4 : Int) < 8 ∧ (0 : Int) < 4 ∧ (4 : Int) < 8) ∧
    ((0 : Int) < 4 ∧ (4 : Int) < 8 ∧ (0 : Int) < 4 ∧ (4 : Int) < 8) ∧
    ((0 : Int) < 4 ∧ (4 : Int) < 8 ∧ (0 : Int) < 4 ∧ (4 : Int) < 8) :=
  ⟨(detection_centers_interior gStarEx).1 ⟨(4, 4), ring44, 0⟩ (by decide),
   (detection_centers_interior gPearlEx).2.1 ⟨(4, 4), ring44⟩ (by decide),
   (detection_centers_interior gClearEx).2.2 [((4 : Int), (4 : Int))]
     ⟨(4, 4), ring44, 0⟩ (by decide)⟩

-- ─── board.js / main.js: data rotations ─────────────────────────

/-- `rotateCluster(grid, cluster, clockwise)` from board.js.  The JS copies
`colorIndex`, `special` and `bombTimer` — i.e. the whole cell — between the
three slots via references; with distinct, occupied positions every read
sees the pre-rotation value, so the net effect is the slot permutation
below.  CW: `0←2, 2←1, 1←saved(0)`; CCW: `0←1, 1←2, 2←saved(0)`. -/
def rotateCluster (g : Grid) (cl : List Pos) (cw : Bool) : Grid :=
  match cl with
  | [p0, p1, p2] =>
    let c0 := g p0
    let c1 := g p1
    let c2 := g p2
    if cw then update (update (update g p0 c2) p2 c1) p1 c0
    else update (update (update g p0 c1) p1 c2) p2 c0
  | _ => g

/-- `rotateRing(grid, ring, clockwise)` from board.js.  CW shifts every
slot's data one position forward (`i ← i−1`, `0 ← saved(5)`); CCW shifts
backward (`i ← i+1`, `5 ← saved(0)`). -/
def rotateRing (g : Grid) (ring : List Pos) (cw : Bool) : Grid :=
  match ring with
  | [p0, p1, p2, p3, p4, p5] =>
    let c0 := g p0
    let c1 := g p1
    let c2 := g p2
    let c3 := g p3
    let c4 := g p4
    let c5 := g p5
    if cw then
      update (update (update (update (update (update g p5 c4) p4 c3) p3 c2)
        p2 c1) p1 c0) p0 c5
    else
      update (update (update (update (update (update g p0 c1) p1 c2) p2 c3)
        p3 c4) p4 c5) p5 c0
  | _ => g

/-- The grid effect of `animateYRotation` (main.js lines 776–786): the
Y-ring is `[nbrs[0], nbrs[2], nbrs[4]]`, `saved` is read up front, and the
whole cells move: CW `y0←saved[2], y1←saved[0], y2←saved[1]`, CCW the
inverse. -/
def rotateY (g : Grid) (center : Pos) (cw : Bool) : Grid :=
  let nbrs := getNeighbors center.1 center.2
  let y0 := nbrs.getD 0 (0, 0)
  let y1 := nbrs.getD 2 (0, 0)
  let y2 := nbrs.getD 4 (0, 0)
  let s0 := g y0
  let s1 := g y1
  let s2 := g y2
  if cw then update (update (update g y0 s2) y1 s0) y2 s1
  else update (update (update g y0 s1) y1 s2) y2 s0

theorem rotateCluster_reads (g : Grid) (p0 p1 p2 : Pos) (cw : Bool)
    (h01 : p0 ≠ p1) (h02 : p0 ≠ p2) (h12 : p1 ≠ p2) :
    rotateCluster g [p0, p1, p2] cw p0 = (if cw then g p2 else g p1) ∧
    rotateCluster g [p0, p1, p2] cw p1 = (if cw then g p0 else g p2) ∧
    rotateCluster g [p0, p1, p2] cw p2 = (if cw then g p1 else g p0) := by
  cases cw <;>
    refine ⟨?_, ?_, ?_⟩ <;>
    simp [rotateCluster, update, h01, h02, h12, h01.symm, h02.symm, h12.symm]

theorem rotateCluster_frame (g : Grid) (p0 p1 p2 : Pos) (cw : Bool) (q : Pos)
    (hq0 : q ≠ p0) (hq1 : q ≠ p1) (hq2 : q ≠ p2) :
    rotateCluster g [p0, p1, p2] cw q = g q := by
  cases cw <;> simp [rotateCluster, update, hq0, hq1, hq2]

theorem rotateRing_reads (g : Grid) (p0 p1 p2 p3 p4 p5 : Pos) (cw : Bool)
    (h01 : p0 ≠ p1) (h02 : p0 ≠ p2) (h03 : p0 ≠ p3) (h04 : p0 ≠ p4) (h05 : p0 ≠ p5)
    (h12 : p1 ≠ p2) (h13 : p1 ≠ p3) (h14 : p1 ≠ p4) (h15 : p1 ≠ p5)
    (h23 : p2 ≠ p3) (h24 : p2 ≠ p4) (h25 : p2 ≠ p5)
    (h34 : p3 ≠ p4) (h35 : p3 ≠ p5) (h45 : p4 ≠ p5) :
    rotateRing g [p0, p1, p2, p3, p4, p5] cw p0 = (if cw then g p5 else g p1) ∧
    rotateRing g [p0, p1, p2, p3, p4, p5] cw p1 = (if cw then g p0 else g p2) ∧
    rotateRing g [p0, p1, p2, p3, p4, p5] cw p2 = (if cw then g p1 else g p3) ∧
    rotateRing g [p0, p1, p2, p3, p4, p5] cw p3 = (if cw then g p2 else g p4) ∧
    rotateRing g [p0, p1, p2, p3, p4, p5] cw p4 = (if cw then g p3 else g p5) ∧
    rotateRing g [p0, p1, p2, p3, p4, p5] cw p5 = (if cw then g p4 else g p0) := by
  cases cw <;>
    refine ⟨?_, ?_, ?_, ?_, ?_, ?_⟩ <;>
    simp [rotateRing, update, h01, h02, h03, h04, h05, h12, h13, h14, h15,
      h23, h24, h25, h34, h35, h45,
      h01.symm, h02.symm, h03.symm, h04.symm, h05.symm, h12.symm, h13.symm,
      h14.symm, h15.symm, h23.symm, h24.symm, h25.symm, h34.symm, h35.symm,
      h45.symm]

theorem rotateRing_frame (g : Grid) (p0 p1 p2 p3 p4 p5 : Pos) (cw : Bool) (q : Pos)
    (hq0 : q ≠ p0) (hq1 : q ≠ p1) (hq2 : q ≠ p2) (hq3 : q ≠ p3) (hq4 : q ≠ p4)
    (hq5 : q ≠ p5) :
    rotateRing g [p0, p1, p2, p3, p4, p5] cw q = g q := by
  cases cw <;> simp [rotateRing, update, hq0, hq1, hq2, hq3, hq4, hq5]

/-- The Y-ring members `nbrs[0], nbrs[2], nbrs[4]` are pairwise distinct. -/
theorem yRing_distinct (c r : Int) :
    (getNeighbors c r).getD 0 (0, 0) ≠ (getNeighbors c r).getD 2 (0, 0) ∧
    (getNeighbors c r).getD 0 (0, 0) ≠ (getNeighbors c r).getD 4 (0, 0) ∧
    (getNeighbors c r).getD 2 (0, 0) ≠ (getNeighbors c r).getD 4 (0, 0) := by
  rcases Int.emod_two_eq c with h | h
  · rw [getNeighbors_even c r h]
    refine ⟨?_, ?_, ?_⟩ <;> simp [Prod.ext_iff] <;> omega
  · rw [getNeighbors_odd c r h]
    refine ⟨?_, ?_, ?_⟩ <;> simp [Prod.ext_iff] <;> omega

-- ════════════════════════════════════════════════════════════════
-- C9: full rotation cycles are the identity
-- ════════════════════════════════════════════════════════════════

/-- C9: on any board, single-step data rotations touch only the selection,
and the full cycle — 3 steps for a Cluster, 6 for a Ring, 3 for a Y — in
either direction restores every cell (color, special and bomb timer) to its
pre-rotation contents. -/
theorem rotation_full_cycles_identity :
    (∀ (g : Grid) (p0 p1 p2 : Pos) (cw : Bool),
      p0 ≠ p1 → p0 ≠ p2 → p1 ≠ p2 →
      inBounds p0 = true → inBounds p1 = true → inBounds p2 = true →
      (g p0).isSome = true → (g p1).isSome = true → (g p2).isSome = true →
      (∀ q : Pos, q ≠ p0 → q ≠ p1 → q ≠ p2 →
        rotateCluster g [p0, p1, p2] cw q = g q) ∧
      rotateCluster (rotateCluster (rotateCluster g [p0, p1, p2] cw)
        [p0, p1, p2] cw) [p0, p1, p2] cw = g) ∧
    (∀ (g : Grid) (p0 p1 p2 p3 p4 p5 : Pos) (cw : Bool),
      p0 ≠ p1 → p0 ≠ p2 → p0 ≠ p3 → p0 ≠ p4 → p0 ≠ p5 →
      p1 ≠ p2 → p1 ≠ p3 → p1 ≠ p4 → p1 ≠ p5 →
      p2 ≠ p3 → p2 ≠ p4 → p2 ≠ p5 → p3 ≠ p4 → p3 ≠ p5 → p4 ≠ p5 →
      inBounds p0 = true → inBounds p1 = true → inBounds p2 = true →
      inBounds p3 = true → inBounds p4 = true → inBounds p5 = true →
      (g p0).isSome = true → (g p1).isSome = true → (g p2).isSome = true →
      (g p3).isSome = true → (g p4).isSome = true → (g p5).isSome = true →
      (∀ q : Pos, q ≠ p0 → q ≠ p1 → q ≠ p2 → q ≠ p3 → q ≠ p4 → q ≠ p5 →
        rotateRing g [p0, p1, p2, p3, p4, p5] cw q = g q) ∧
      rotateRing (rotateRing (rotateRing (rotateRing (rotateRing (rotateRing g
        [p0, p1, p2, p3, p4, p5] cw) [p0, p1, p2, p3, p4, p5] cw)
        [p0, p1, p2, p3, p4, p5] cw) [p0, p1, p2, p3, p4, p5] cw)
        [p0, p1, p2, p3, p4, p5] cw) [p0, p1, p2, p3, p4, p5] cw = g) ∧
    (∀ (g : Grid) (center : Pos) (cw : Bool),
      inBounds ((getNeighbors center.1 center.2).getD 0 (0, 0)) = true →
      inBounds ((getNeighbors center.1 center.2).getD 2 (0, 0)) = true →
      inBounds ((getNeighbors center.1 center.2).getD 4 (0, 0)) = true →
      (∀ q : Pos, q ≠ (getNeighbors center.1 center.2).getD 0 (0, 0) →
        q ≠ (getNeighbors center.1 center.2).getD 2 (0, 0) →
        q ≠ (getNeighbors center.1 center.2).getD 4 (0, 0) →
        rotateY g center cw q = g q) ∧
      rotateY (rotateY (rotateY g center cw) center cw) center cw = g) := by
  refine ⟨?_, ?_, ?_⟩
  · intro g p0 p1 p2 cw h01 h02 h12 _ _ _ _ _ _
    constructor
    · intro q hq0 hq1 hq2
      exact rotateCluster_frame g p0 p1 p2 cw q hq0 hq1 hq2
    · funext q
      by_cases hq0 : q = p0
      · subst hq0
        cases cw <;>
          simp [rotateCluster, update, h01, h02, h12, h01.symm, h02.symm, h12.symm]
      · by_cases hq1 : q = p1
        · subst hq1
          cases cw <;>
            simp [rotateCluster, update, h01, h02, h12, h01.symm, h02.symm, h12.symm]
        · by_cases hq2 : q = p2
          · subst hq2
            cases cw <;>
              simp [rotateCluster, update, h01, h02, h12, h01.symm, h02.symm, h12.symm]
          · cases cw <;> simp [rotateCluster, update, hq0, hq1, hq2]
  · intro g p0 p1 p2 p3 p4 p5 cw h01 h02 h03 h04 h05 h12 h13 h14 h15 h23 h24 h25
      h34 h35 h45 _ _ _ _ _ _ _ _ _ _ _ _
    constructor
    · intro q hq0 hq1 hq2 hq3 hq4 hq5
      exact rotateRing_frame g p0 p1 p2 p3 p4 p5 cw q hq0 hq1 hq2 hq3 hq4 hq5
    · funext q
      by_cases hq0 : q = p0
      · subst hq0
        cases cw <;>
          simp [rotateRing, update, h01, h02, h03, h04, h05, h12, h13, h14, h15,
            h23, h24, h25, h34, h35, h45, h01.symm, h02.symm, h03.symm, h04.symm,
            h05.symm, h12.symm, h13.symm, h14.symm, h15.symm, h23.symm, h24.symm,
            h25.symm, h34.symm, h35.symm, h45.symm]
      · by_cases hq1 : q = p1
        · subst hq1
          cases cw <;>
            simp [rotateRing, update, h01, h02, h03, h04, h05, h12, h13, h14, h15,
              h23, h24, h25, h34, h35, h45, h01.symm, h02.symm, h03.symm, h04.symm,
              h05.symm, h12.symm, h13.symm, h14.symm, h15.symm, h23.symm, h24.symm,
              h25.symm, h34.symm, h35.symm, h45.symm]
        · by_cases hq2 : q = p2
          · subst hq2
            cases cw <;>
              simp [rotateRing, update, h01, h02, h03, h04, h05, h12, h13, h14,
                h15, h23, h24, h25, h34, h35, h45, h01.symm, h02.symm, h03.symm,
                h04.symm, h05.symm, h12.symm, h13.symm, h14.symm, h15.symm,
                h23.symm, h24.symm, h25.symm, h34.symm, h35.symm, h45.symm]
          · by_cases hq3 : q = p3
            · subst hq3
              cases cw <;>
                simp [rotateRing, update, h01, h02, h03, h04, h05, h12, h13, h14,
                  h15, h23, h24, h25, h34, h35, h45, h01.symm, h02.symm, h03.symm,
                  h04.symm, h05.symm, h12.symm, h13.symm, h14.symm, h15.symm,
                  h23.symm, h24.symm, h25.symm, h34.symm, h35.symm, h45.symm]
            · by_cases hq4 : q = p4
              · subst hq4
                cases cw <;>
                  simp [rotateRing, update, h01, h02, h03, h04, h05, h12, h13,
                    h14, h15, h23, h24, h25, h34, h35, h45, h01.symm, h02.symm,
                    h03.symm, h04.symm, h05.symm, h12.symm, h13.symm, h14.symm,
                    h15.symm, h23.symm, h24.symm, h25.symm, h34.symm, h35.symm,
                    h45.symm]
              · by_cases hq5 : q = p5
                · subst hq5
                  cases cw <;>
                    simp [rotateRing, update, h01, h02, h03, h04, h05, h12, h13,
                      h14, h15, h23, h24, h25, h34, h35, h45, h01.symm, h02.symm,
                      h03.symm, h04.symm, h05.symm, h12.symm, h13.symm, h14.symm,
                      h15.symm, h23.symm, h24.symm, h25.symm, h34.symm, h35.symm,
                      h45.symm]
                · cases cw <;>
                    simp [rotateRing, update, hq0, hq1, hq2, hq3, hq4, hq5]
  · intro g center cw _ _ _
    obtain ⟨d02, d04, d24⟩ := yRing_distinct center.1 center.2
    simp only [List.getD_eq_getElem?_getD, Prod.mk_zero_zero] at d02 d04 d24
    constructor
    · intro q hq0 hq2 hq4
      simp only [List.getD_eq_getElem?_getD, Prod.mk_zero_zero] at hq0 hq2 hq4
      cases cw <;> simp [rotateY, update, List.getD, hq0, hq2, hq4]
    · funext q
      by_cases hq0 : q = (getNeighbors center.1 center.2).getD 0 (0, 0)
      · subst hq0
        cases cw <;>
          simp [rotateY, update, List.getD, d02, d04, d24, d02.symm, d04.symm,
            d24.symm]
      · by_cases hq2 : q = (getNeighbors center.1 center.2).getD 2 (0, 0)
        · subst hq2
          cases cw <;>
            simp [rotateY, update, List.getD, d02, d04, d24, d02.symm, d04.symm,
              d24.symm]
        · by_cases hq4 : q = (getNeighbors center.1 center.2).getD 4 (0, 0)
          · subst hq4
            cases cw <;>
              simp [rotateY, update, List.getD, d02, d04, d24, d02.symm, d04.symm,
                d24.symm]
          · simp only [List.getD_eq_getElem?_getD, Prod.mk_zero_zero] at hq0 hq2 hq4
            cases cw <;> simp [rotateY, update, List.getD, hq0, hq2, hq4]

/-- Witness for C9: the three full cycles applied on the concrete board
`gStarEx`, at a real cluster, the ring of `(4,4)`, and the Y of `(4,4)`. -/
theorem rotation_full_cycles_identity_witness :
    (rotateCluster (rotateCluster (rotateCluster gStarEx
      [(4, 4), (5, 4), (5, 3)] true) [(4, 4), (5, 4), (5, 3)] true)
      [(4, 4), (5, 4), (5, 3)] true = gStarEx) ∧
    (rotateRing (rotateRing (rotateRing (rotateRing (rotateRing (rotateRing gStarEx
      ring44 false) ring44 false) ring44 false) ring44 false) ring44 false)
      ring44 false = gStarEx) ∧
    (rotateY (rotateY (rotateY gStarEx (4, 4) true) (4, 4) true) (4, 4) true =
      gStarEx) := by
  refine ⟨?_, ?_, ?_⟩
  · exact (rotation_full_cycles_identity.1 gStarEx (4, 4) (5, 4) (5, 3) true
      (by decide) (by decide) (by decide) (by decide) (by decide) (by decide)
      (by decide) (by decide) (by decide)).2
  · have h := (rotation_full_cycles_identity.2.1 gStarEx (5, 4) (5, 3) (4, 3)
      (3, 3) (3, 4) (4, 5) false
      (by decide) (by decide) (by decide) (by decide) (by decide) (by decide)
      (by decide) (by decide) (by decide) (by decide) (by decide) (by decide)
      (by decide) (by decide) (by decide) (by decide) (by decide) (by decide)
      (by decide) (by decide) (by decide) (by decide) (by decide) (by decide)
      (by decide) (by decide) (by decide)).2
    exact h
  · exact (rotation_full_cycles_identity.2.2 gStarEx (4, 4) true
      (by decide) (by decide) (by decide)).2

-- ════════════════════════════════════════════════════════════════
-- C2: black-pearl creation consumes its ring of six starflowers
-- ════════════════════════════════════════════════════════════════

/-- The board mutations of `animateBlackPearlCreation` (main.js lines
799–827) for a single descriptor: set the center cell to a black pearl
(guarded by `if (centerCell)`), then clear every absorbed ring cell. -/
def absorbBlackPearl (g : Grid) (bp : BPDescr) : Grid :=
  let g1 := match g bp.center with
    | some _ => update g bp.center (some ⟨-2, some Special.blackpearl, none⟩)
    | none => g
  bp.ring.foldl (fun gg pos => update gg pos none) g1

/-- The grid effect of `animateBlackPearlCreation` over all descriptors, in
order, before the trailing gravity/refill. -/
def animateBlackPearlCreationData (g : Grid) (bps : List BPDescr) : Grid :=
  bps.foldl absorbBlackPearl g

/-- Black-pearl detection followed by the absorption that
`animateBlackPearlCreation` performs on the returned descriptors. -/
def blackPearlPhase (g : Grid) : Grid × List BPDescr :=
  let st := detectBlackPearls g
  (animateBlackPearlCreationData st.1 st.2, st.2)

theorem isStarflowerAt_true_iff (g : Grid) (n : Pos) :
    isStarflowerAt g n = true ↔
      inBounds n = true ∧ ∃ c : Cell, g n = some c ∧
        c.special = some Special.starflower := by
  unfold isStarflowerAt
  rw [Bool.and_eq_true]
  rcases hgn : g n with _ | c
  · simp
  · simp [hgn]

/-- Invariant of the `detectBlackPearls` scan relative to the initial grid
`g0`: emitted centers hold pearls, everything else is untouched, every ring
is six distinct in-bounds starflower slots of `g0` adjacent to its center,
and no emitted center lies in any emitted ring. -/
def BPInv (g0 gcur : Grid) (res : List BPDescr) : Prop :=
  (∀ bp ∈ res, gcur bp.center = some ⟨-2, some Special.blackpearl, none⟩) ∧
  (∀ q : Pos, (∀ bp ∈ res, bp.center ≠ q) → gcur q = g0 q) ∧
  (∀ bp ∈ res, inBounds bp.center = true ∧ bp.ring.length = 6 ∧ bp.ring.Nodup ∧
     bp.center ∉ bp.ring ∧
     ∀ p ∈ bp.ring, p ∈ getNeighbors bp.center.1 bp.center.2 ∧ inBounds p = true ∧
       ∃ c : Cell, g0 p = some c ∧ c.special = some Special.starflower) ∧
  (∀ bp ∈ res, ∀ bp' ∈ res, bp.center ∉ bp'.ring)

theorem bpStep_preserves (g0 g : Grid) (res : List BPDescr) (p : Pos)
    (hp : inBounds p = true) (hinv : BPInv g0 g res) :
    BPInv g0 (bpStep g res p).1 (bpStep g res p).2 := by
  obtain ⟨hA1, hA2, hB, hC⟩ := hinv
  unfold bpStep
  rcases hgp : g p with _ | cell <;> try dsimp only
  · exact ⟨hA1, hA2, hB, hC⟩
  · split_ifs with h1 h2
    · exact ⟨hA1, hA2, hB, hC⟩
    swap
    · exact ⟨hA1, hA2, hB, hC⟩
    · -- emission: all six neighbors are starflowers in the current grid
      have hall : ∀ n ∈ getNeighbors p.1 p.2, isStarflowerAt g n = true := by
        rw [← List.filter_length_eq_length]
        rw [h2, getNeighbors_length]
      have hf1 : ∀ bp ∈ res, bp.center ≠ p := by
        intro bp hbp heq
        have := hA1 bp hbp
        rw [heq, hgp] at this
        cases Option.some.inj this
        exact h1 rfl
      have hf2 : ∀ n ∈ (getNeighbors p.1 p.2).filter (isStarflowerAt g),
          ∀ bp ∈ res, bp.center ≠ n := by
        intro n hn bp hbp heq
        obtain ⟨c, hc, hcs⟩ := ((isStarflowerAt_true_iff g n).mp
          (List.of_mem_filter hn)).2
        have := hA1 bp hbp
        rw [heq, hc] at this
        cases Option.some.inj this
        cases hcs
      have hf3 : ∀ bp ∈ res, p ∉ bp.ring := by
        intro bp hbp hmem
        have hadj := (hB bp hbp).2.2.2.2 p hmem
        have hsym : bp.center ∈ getNeighbors p.1 p.2 := by
          have : adjacent bp.center p := hadj.1
          exact adjacent_symm this
        obtain ⟨c, hc, hcs⟩ :=
          ((isStarflowerAt_true_iff g bp.center).mp (hall _ hsym)).2
        have := hA1 bp hbp
        rw [hc] at this
        cases Option.some.inj this
        cases hcs
      have hf5 : p ∉ (getNeighbors p.1 p.2).filter (isStarflowerAt g) := by
        intro hmem
        obtain ⟨x, y⟩ := p
        exact self_not_mem_getNeighbors x y (List.mem_of_mem_filter hmem)
      unfold BPInv
      dsimp only
      refine ⟨?_, ?_, ?_, ?_⟩
      · intro bp hbp
        rcases List.mem_append.mp hbp with hold | hnew
        · rw [update_other _ _ _ _ (hf1 bp hold)]
          exact hA1 bp hold
        · rcases List.mem_singleton.mp hnew with rfl
          exact update_same ..
      · intro q hq
        have hqp : q ≠ p := by
          have := hq ⟨p, (getNeighbors p.1 p.2).filter (isStarflowerAt g)⟩
            (List.mem_append.mpr (Or.inr (List.mem_singleton.mpr rfl)))
          exact fun he => this he.symm
        rw [update_other _ _ _ _ (fun he => hqp he)]
        exact hA2 q fun bp hbp =>
          hq bp (List.mem_append.mpr (Or.inl hbp))
      · intro bp hbp
        rcases List.mem_append.mp hbp with hold | hnew
        · exact hB bp hold
        · rcases List.mem_singleton.mp hnew with rfl
          refine ⟨hp, h2, (getNeighbors_nodup p.1 p.2).filter _, hf5, ?_⟩
          intro n hn
          have hmem := List.mem_of_mem_filter hn
          obtain ⟨hnb, c, hc, hcs⟩ := (isStarflowerAt_true_iff g n).mp
            (List.of_mem_filter hn)
          refine ⟨hmem, hnb, c, ?_, hcs⟩
          rw [← hA2 n (hf2 n hn)]
          exact hc
      · intro bp hbp bp' hbp'
        rcases List.mem_append.mp hbp with hold | hnew <;>
          rcases List.mem_append.mp hbp' with hold' | hnew'
        · exact hC bp hold bp' hold'
        · rcases List.mem_singleton.mp hnew' with rfl
          exact fun hm => hf2 _ hm bp hold rfl
        · rcases List.mem_singleton.mp hnew with rfl
          exact hf3 bp' hold'
        · rcases List.mem_singleton.mp hnew with rfl
          rcases List.mem_singleton.mp hnew' with rfl
          exact hf5

set_option maxRecDepth 4000 in
theorem detectBlackPearls_inv (g0 : Grid) :
    BPInv g0 (detectBlackPearls g0).1 (detectBlackPearls g0).2 := by
  have hgen : ∀ (l : List Pos), (∀ p ∈ l, inBounds p = true) →
      ∀ (g : Grid) (res : List BPDescr), BPInv g0 g res →
      BPInv g0 (l.foldl (fun st p => bpStep st.1 st.2 p) (g, res)).1
        (l.foldl (fun st p => bpStep st.1 st.2 p) (g, res)).2 := by
    intro l
    induction l with
    | nil => intro _ g res h; exact h
    | cons p l ih =>
      intro hl g res h
      rw [List.foldl_cons]
      have h1 := bpStep_preserves g0 g res p (hl p (List.mem_cons_self ..)) h
      exact ih (fun q hq => hl q (List.mem_cons_of_mem _ hq)) _ _ h1
  have hinit : BPInv g0 g0 [] :=
    ⟨by simp, fun q _ => rfl, by simp, by simp⟩
  have hall : ∀ p ∈ allPositions, inBounds p = true := by
    intro p hp
    rw [inBounds_iff]
    exact (mem_allPositions p).mp hp
  exact hgen allPositions hall g0 [] hinit

/-- Pointwise value of the ring-clearing loop of `animateBlackPearlCreation`. -/
theorem ringClear_foldl (ring : List Pos) :
    ∀ (h : Grid) (q : Pos),
      (ring.foldl (fun gg pos => update gg pos none) h) q =
        if q ∈ ring then none else h q := by
  induction ring with
  | nil => intro h q; simp
  | cons a t ih =>
    intro h q
    rw [List.foldl_cons, ih]
    by_cases hq : q ∈ t
    · simp [hq]
    · by_cases hqa : q = a
      · subst hqa
        simp [hq, update_same]
      · simp [hq, hqa, update]

theorem absorb_none_persists :
    ∀ (l : List BPDescr) (G : Grid) (q : Pos), G q = none →
      (l.foldl absorbBlackPearl G) q = none := by
  intro l
  induction l with
  | nil => intro G q h; exact h
  | cons b t ih =>
    intro G q h
    rw [List.foldl_cons]
    apply ih
    unfold absorbBlackPearl
    try dsimp only
    rw [ringClear_foldl]
    split_ifs with hq
    · rfl
    · rcases hgc : G b.center with _ | c <;> try dsimp only
      · exact h
      · by_cases hqc : q = b.center
        · subst hqc
          rw [hgc] at h
          cases h
        · rw [update_other _ _ _ _ hqc]
          exact h

theorem absorb_pearl_persists :
    ∀ (l : List BPDescr) (G : Grid) (q : Pos),
      (∀ bp ∈ l, q ∉ bp.ring) →
      G q = some ⟨-2, some Special.blackpearl, none⟩ →
      (l.foldl absorbBlackPearl G) q =
        some ⟨-2, some Special.blackpearl, none⟩ := by
  intro l
  induction l with
  | nil => intro G q _ h; exact h
  | cons b t ih =>
    intro G q hq h
    rw [List.foldl_cons]
    apply ih _ _ (fun bp hbp => hq bp (List.mem_cons_of_mem _ hbp))
    unfold absorbBlackPearl
    try dsimp only
    rw [ringClear_foldl]
    rw [if_neg (hq b (List.mem_cons_self ..))]
    rcases hgc : G b.center with _ | c <;> try dsimp only
    · exact h
    · by_cases hqc : q = b.center
      · subst hqc
        rw [update_same]
      · rw [update_other _ _ _ _ hqc]
        exact h

/-- Combined effect of absorbing every descriptor: each center holds a black
pearl and each ring slot is cleared, provided no center lies in any ring and
every center holds a cell when absorption starts. -/
theorem absorb_spec :
    ∀ (l : List BPDescr) (G : Grid),
      (∀ bp ∈ l, ∀ bp' ∈ l, bp.center ∉ bp'.ring) →
      (∀ bp ∈ l, G bp.center = some ⟨-2, some Special.blackpearl, none⟩) →
      ∀ bp ∈ l,
        (l.foldl absorbBlackPearl G) bp.center =
          some ⟨-2, some Special.blackpearl, none⟩ ∧
        ∀ p ∈ bp.ring, (l.foldl absorbBlackPearl G) p = none := by
  intro l
  induction l with
  | nil => intro G _ _ bp hbp; cases hbp
  | cons b t ih =>
    intro G hcr hsome bp hbp
    rw [List.foldl_cons]
    have hG1center : ∀ x ∈ b :: t, (absorbBlackPearl G b) x.center =
        some ⟨-2, some Special.blackpearl, none⟩ := by
      intro x hx
      unfold absorbBlackPearl
      try dsimp only
      rw [ringClear_foldl, if_neg (hcr x hx b (List.mem_cons_self ..))]
      rcases hgc : G b.center with _ | c <;> try dsimp only
      · have := hsome b (List.mem_cons_self ..)
        rw [hgc] at this
        cases this
      · by_cases hxc : x.center = b.center
        · rw [hxc, update_same]
        · rw [update_other _ _ _ _ hxc]
          exact hsome x hx
    rcases List.mem_cons.mp hbp with rfl | hbpt
    · constructor
      · exact absorb_pearl_persists t _ _
          (fun x hx => hcr bp (List.mem_cons_self ..) x (List.mem_cons_of_mem _ hx))
          (hG1center bp (List.mem_cons_self ..))
      · intro p hp
        apply absorb_none_persists
        unfold absorbBlackPearl
        try dsimp only
        rw [ringClear_foldl, if_pos hp]
    · exact ih _
        (fun x hx y hy =>
          hcr x (List.mem_cons_of_mem _ hx) y (List.mem_cons_of_mem _ hy))
        (fun x hx => hG1center x (List.mem_cons_of_mem _ hx)) bp hbpt

/-- C2: for every board and every descriptor returned by
`detectBlackPearls`, after the detection-plus-absorption event the center
holds a black pearl (`colorIndex = -2`, `special = blackpearl`, no bomb
timer) and the six ring cells — six distinct slots that all held starflowers
on the input board — are set to `none`: exactly 6 starflowers are consumed
per pearl. -/
theorem detectBlackPearls_consumes_ring (g : Grid) :
    ∀ bp ∈ (blackPearlPhase g).2,
      (blackPearlPhase g).1 bp.center =
        some ⟨-2, some Special.blackpearl, none⟩ ∧
      bp.ring.length = 6 ∧ bp.ring.Nodup ∧
      ∀ p ∈ bp.ring, (blackPearlPhase g).1 p = none ∧
        ∃ c : Cell, g p = some c ∧ c.special = some Special.starflower := by
  intro bp hbp
  simp only [blackPearlPhase] at hbp ⊢
  obtain ⟨hA1, hA2, hB, hC⟩ := detectBlackPearls_inv g
  have habs := absorb_spec (detectBlackPearls g).2 (detectBlackPearls g).1
    (fun x hx y hy => hC x hx y hy) (fun x hx => hA1 x hx) bp hbp
  refine ⟨habs.1, (hB bp hbp).2.1, (hB bp hbp).2.2.1, ?_⟩
  intro p hp
  exact ⟨habs.2 p hp, ((hB bp hbp).2.2.2.2 p hp).2.2⟩

set_option maxRecDepth 400000 in
/-- Witness for C2: on the board with starflowers around `(4,4)`, the pearl
event converts the center and clears all six ring cells. -/
theorem detectBlackPearls_consumes_ring_witness :
    (blackPearlPhase gPearlEx).1 ((4 : Int), (4 : Int)) =
      some ⟨-2, some Special.blackpearl, none⟩ ∧
    ring44.length = 6 ∧ ring44.Nodup ∧
    ∀ p ∈ ring44, (blackPearlPhase gPearlEx).1 p = none ∧
      ∃ c : Cell, gPearlEx p = some c ∧ c.special = some Special.starflower :=
  detectBlackPearls_consumes_ring gPearlEx ⟨(4, 4), ring44⟩ (by decide)

-- ════════════════════════════════════════════════════════════════
-- C4: applyGravity compacts each column
-- ════════════════════════════════════════════════════════════════

/-- One iteration of the inner `for (r = rows-1; r >= 0; r--)` loop of
`applyGravity` at row `r` of column `c`: state is `(grid, writeRow, moved)`. -/
def gravityColStep (c r : Int) (st : Grid × Int × Bool) : Grid × Int × Bool :=
  match st.1 (c, r) with
  | some cell =>
      if r ≠ st.2.1 then
        (update (update st.1 (c, st.2.1) (some cell)) (c, r) none, st.2.1 - 1, true)
      else (st.1, st.2.1 - 1, st.2.2)
  | none => st

/-- The inner loop, processing rows `n-1, n-2, …, 0` (so `n = 9` runs it for
rows `8` down to `0`, exactly as the JS `for` loop does). -/
def gravityColAux (c : Int) : Nat → (Grid × Int × Bool) → Grid × Int × Bool
  | 0, st => st
  | n + 1, st => gravityColAux c n (gravityColStep c (n : Int) st)

/-- One column pass of `applyGravity`: `writeRow` starts at `rows - 1 = 8`. -/
def gravityCol (g : Grid) (c : Int) : Grid × Bool :=
  let st := gravityColAux c 9 (g, 8, false)
  (st.1, st.2.2)

/-- `applyGravity(grid)` from board.js: per-column compaction over columns
`0..8`; returns the grid and whether any piece moved. -/
def applyGravity (g : Grid) : Grid × Bool :=
  (List.range 9).foldl
    (fun acc (c : Nat) =>
      let r := gravityCol acc.1 (c : Int)
      (r.1, acc.2 || r.2))
    (g, false)

/-- The top-to-bottom list of the slots of column `c` from row `m` down to
row 8. -/
def colSeg (g : Grid) (c : Int) (m : Nat) : List (Option Cell) :=
  (List.range (9 - m)).map fun j : Nat => g (c, ((m + j : Nat) : Int))

theorem colSeg_length (g : Grid) (c : Int) (m : Nat) :
    (colSeg g c m).length = 9 - m := by
  simp [colSeg]

theorem colSeg_succ (g : Grid) (c : Int) (m : Nat) (h : m < 9) :
    colSeg g c m = g (c, (m : Int)) :: colSeg g c (m + 1) := by
  unfold colSeg
  have h9 : 9 - m = (9 - (m + 1)) + 1 := by omega
  rw [h9, List.range_succ_eq_map, List.map_cons, List.map_map]
  congr 1
  refine List.map_congr_left fun a _ => ?_
  simp only [Function.comp_apply]
  congr 1
  rw [Prod.mk.injEq]
  exact ⟨rfl, by omega⟩

theorem colSeg_update_ne (g : Grid) (c : Int) (m : Nat) (q : Pos)
    (v : Option Cell) (hq : q.1 ≠ c ∨ q.2 < (m : Int) ∨ 9 ≤ q.2) :
    colSeg (update g q v) c m = colSeg g c m := by
  unfold colSeg
  refine List.map_congr_left fun j hj => ?_
  rw [List.mem_range] at hj
  apply update_other
  intro he
  subst he
  rcases hq with h | h | h
  · exact h rfl
  all_goals
    dsimp only at h
    omega

theorem colSeg_update_set (g : Grid) (c : Int) (m : Nat) (w : Int)
    (v : Option Cell) (h1 : (m : Int) ≤ w) (h2 : w < 9) :
    colSeg (update g (c, w) v) c m = (colSeg g c m).set (w - m).toNat v := by
  apply List.ext_getElem
  · simp [colSeg_length]
  · intro j hj1 hj2
    rw [colSeg_length] at hj1
    unfold colSeg
    rw [List.getElem_set, List.getElem_map, List.getElem_range,
      List.getElem_map, List.getElem_range]
    by_cases hw : (w - m).toNat = j
    · rw [if_pos hw]
      have hmj : ((m + j : Nat) : Int) = w := by omega
      rw [hmj, update_same]
    · rw [if_neg hw]
      apply update_other
      intro he
      rw [Prod.ext_iff] at he
      have h2e := he.2
      dsimp only at h2e
      omega

theorem replicate_append_set (k : Nat) (hk : 1 ≤ k) (X : List (Option Cell))
    (v : Option Cell) :
    (List.replicate k (none : Option Cell) ++ X).set (k - 1) v =
      List.replicate (k - 1) none ++ v :: X := by
  have hrep : List.replicate k (none : Option Cell) =
      List.replicate (k - 1) none ++ [none] := by
    have : k = (k - 1) + 1 := by omega
    rw [this, List.replicate_succ']
    simp
  rw [hrep, List.append_assoc]
  rw [List.set_append_right _ _ (by simp)]
  simp only [List.length_replicate]
  have h0 : k - 1 - (k - 1) = 0 := by omega
  rw [h0]
  rfl

/-- Loop invariant of the per-column gravity pass, relative to the original
grid `O`: with rows `≥ n` already processed, the suffix of column `c` is
bottom-compacted, `writeRow` sits just above the compacted block, and the
`moved` flag records whether the processed suffix changed.  Running the
remaining `n` iterations yields the fully compacted column. -/
theorem gravityColAux_spec (c : Int) (O : Grid) :
    ∀ n : Nat, n ≤ 9 → ∀ (g : Grid) (w : Int) (m : Bool),
      (∀ r : Int, r < (n : Int) → g (c, r) = O (c, r)) →
      (∀ q : Pos, q.1 ≠ c → g q = O q) →
      colSeg g c n =
        List.replicate ((9 - n) - ((colSeg O c n).filterMap id).length) none ++
          ((colSeg O c n).filterMap id).map some →
      w = 8 - (((colSeg O c n).filterMap id).length : Int) →
      m = decide (colSeg O c n ≠ colSeg g c n) →
      (∀ q : Pos, q.1 ≠ c → (gravityColAux c n (g, w, m)).1 q = O q) ∧
      colSeg (gravityColAux c n (g, w, m)).1 c 0 =
        List.replicate (9 - ((colSeg O c 0).filterMap id).length) none ++
          ((colSeg O c 0).filterMap id).map some ∧
      (gravityColAux c n (g, w, m)).2.2 =
        decide (colSeg O c 0 ≠ colSeg (gravityColAux c n (g, w, m)).1 c 0) := by
  intro n
  induction n with
  | zero =>
    intro _ g w m h1 hside h2 h3 h4
    refine ⟨hside, ?_, ?_⟩
    · simpa using h2
    · simpa using h4
  | succ n ih =>
    intro hn g w m h1 hside h2 h3 h4
    have hstep : gravityColAux c (n + 1) (g, w, m) =
        gravityColAux c n (gravityColStep c (n : Int) (g, w, m)) := rfl
    rw [hstep]
    have hn9 : n < 9 := by omega
    have hrow : g (c, (n : Int)) = O (c, (n : Int)) := h1 _ (by omega)
    have hTlen : ((colSeg O c (n + 1)).filterMap id).length ≤ 8 - n := by
      have hl := List.length_filterMap_le (id : Option Cell → Option Cell)
        (colSeg O c (n + 1))
      rw [colSeg_length] at hl
      omega
    have hOn : colSeg O c n = O (c, (n : Int)) :: colSeg O c (n + 1) :=
      colSeg_succ O c n hn9
    rcases hO : O (c, (n : Int)) with _ | cell
    · -- empty slot: the step is a no-op
      have hgn : g (c, (n : Int)) = none := hrow.trans hO
      have hsv : gravityColStep c (n : Int) (g, w, m) = (g, w, m) := by
        simp [gravityColStep, hgn]
      rw [hsv]
      have hSn : (colSeg O c n).filterMap id =
          (colSeg O c (n + 1)).filterMap id := by
        rw [hOn, hO]
        rfl
      apply ih (by omega)
      · intro r hr
        exact h1 r (by omega)
      · exact hside
      · rw [colSeg_succ g c n hn9, hgn, hSn, h2]
        have hcount : (9 - n) - ((colSeg O c (n + 1)).filterMap id).length =
            ((9 - (n + 1)) - ((colSeg O c (n + 1)).filterMap id).length) + 1 := by
          omega
        rw [hcount, List.replicate_succ]
        rfl
      · rw [hSn]
        exact h3
      · rw [hOn, hO, colSeg_succ g c n hn9, hgn, h4]
        apply decide_eq_decide.mpr
        simp
    · -- occupied slot
      have hgn : g (c, (n : Int)) = some cell := hrow.trans hO
      have hSn : (colSeg O c n).filterMap id =
          cell :: (colSeg O c (n + 1)).filterMap id := by
        rw [hOn, hO]
        rfl
      by_cases hw : (n : Int) = w
      · -- already at its write position: no move
        have hsv : gravityColStep c (n : Int) (g, w, m) = (g, w - 1, m) := by
          unfold gravityColStep
          dsimp only
          rw [hgn]
          dsimp only
          rw [if_neg (not_not_intro hw)]
        rw [hsv]
        have hlen8 : ((colSeg O c (n + 1)).filterMap id).length = 8 - n := by
          omega
        apply ih (by omega)
        · intro r hr
          exact h1 r (by omega)
        · exact hside
        · rw [colSeg_succ g c n hn9, hgn, hSn, h2]
          simp only [List.length_cons, hlen8]
          have e1 : (9 - (n + 1)) - (8 - n) = 0 := by omega
          have e2 : (9 - n) - (8 - n + 1) = 0 := by omega
          rw [e1, e2]
          rfl
        · rw [hSn]
          simp only [List.length_cons]
          push_cast
          omega
        · rw [hOn, hO, colSeg_succ g c n hn9, hgn, h4]
          apply decide_eq_decide.mpr
          simp
      · -- displaced: write at `w`, clear row `n`
        have hsv : gravityColStep c (n : Int) (g, w, m) =
            (update (update g (c, w) (some cell)) (c, (n : Int)) none,
             w - 1, true) := by
          unfold gravityColStep
          dsimp only
          rw [hgn]
          dsimp only
          rw [if_pos hw]
        rw [hsv]
        have hlenlt : ((colSeg O c (n + 1)).filterMap id).length < 8 - n := by
          rcases Nat.lt_or_ge ((colSeg O c (n + 1)).filterMap id).length (8 - n)
            with h | h
          · exact h
          · exfalso
            apply hw
            omega
        have hwlo : (n : Int) + 1 ≤ w := by omega
        have hwhi : w < 9 := by omega
        set k := (9 - (n + 1)) - ((colSeg O c (n + 1)).filterMap id).length
          with hk
        have hk1 : 1 ≤ k := by omega
        have hwk : (w - ((n : Nat) + 1 : Nat)).toNat = k - 1 := by
          push_cast
          omega
        apply ih (by omega)
        · intro r hr
          rw [update_other _ _ _ _ (by
            intro he
            rw [Prod.ext_iff] at he
            have := he.2
            dsimp only at this
            omega)]
          rw [update_other _ _ _ _ (by
            intro he
            rw [Prod.ext_iff] at he
            have := he.2
            dsimp only at this
            omega)]
          exact h1 r (by omega)
        · intro q hq
          rw [update_other _ _ _ _ (by
            intro he
            rw [he] at hq
            exact hq rfl)]
          rw [update_other _ _ _ _ (by
            intro he
            rw [he] at hq
            exact hq rfl)]
          exact hside q hq
        · rw [colSeg_succ _ c n hn9, update_same]
          rw [colSeg_update_ne _ c (n + 1) _ _ (by
            right; left
            dsimp only
            push_cast
            omega)]
          rw [colSeg_update_set g c (n + 1) w (some cell) (by push_cast; omega)
            hwhi]
          rw [h2, hwk, replicate_append_set k hk1]
          rw [hSn]
          have hcount : (9 - n) -
              ((cell :: (colSeg O c (n + 1)).filterMap id).length) = k := by
            simp only [List.length_cons]
            omega
          rw [hcount]
          have hkrep : (List.replicate k (none : Option Cell)) =
              none :: List.replicate (k - 1) none := by
            have : k = (k - 1) + 1 := by omega
            rw [this]
            rfl
          rw [hkrep]
          rfl
        · rw [hSn]
          simp only [List.length_cons]
          push_cast
          omega
        · rw [hOn, hO, colSeg_succ _ c n hn9, update_same]
          symm
          apply decide_eq_true
          intro he
          simp at he

theorem gravityCol_spec (g : Grid) (c : Int) :
    (∀ q : Pos, q.1 ≠ c → (gravityCol g c).1 q = g q) ∧
    colSeg (gravityCol g c).1 c 0 =
      List.replicate (9 - ((colSeg g c 0).filterMap id).length) none ++
        ((colSeg g c 0).filterMap id).map some ∧
    (gravityCol g c).2 = decide (colSeg g c 0 ≠ colSeg (gravityCol g c).1 c 0) := by
  have h := gravityColAux_spec c g 9 (by omega) g 8 false
    (fun r _ => rfl) (fun q _ => rfl) (by simp [colSeg]) (by simp [colSeg])
    (by simp)
  exact ⟨h.1, h.2.1, h.2.2⟩

/-- Reading a slot through the top-down column listing. -/
theorem colSeg_zero_getD (g : Grid) (c : Int) (j : Nat) (hj : j < 9)
    (d : Option Cell) :
    (colSeg g c 0).getD j d = g (c, (j : Int)) := by
  rw [List.getD_eq_getElem _ d (by rw [colSeg_length]; omega)]
  unfold colSeg
  rw [List.getElem_map, List.getElem_range]
  norm_num

theorem colSeg_ne_iff (a b : Grid) (c : Int) :
    colSeg a c 0 ≠ colSeg b c 0 ↔
      ∃ j : Nat, j < 9 ∧ a (c, (j : Int)) ≠ b (c, (j : Int)) := by
  constructor
  · intro hne
    by_contra hforall
    push_neg at hforall
    apply hne
    apply List.ext_getElem
    · simp [colSeg_length]
    · intro j hj1 hj2
      rw [colSeg_length] at hj1
      unfold colSeg
      rw [List.getElem_map, List.getElem_range, List.getElem_map,
        List.getElem_range]
      have h := hforall j (by omega)
      simpa using h
  · rintro ⟨j, hj, hne⟩ heq
    apply hne
    have h1 := colSeg_zero_getD a c j hj none
    have h2 := colSeg_zero_getD b c j hj none
    rw [← h1, ← h2, heq]

theorem filterMap_id_replicate_none (k : Nat) :
    List.filterMap id (List.replicate k (none : Option Cell)) = [] := by
  induction k with
  | zero => rfl
  | succ n ih => rw [List.replicate_succ, List.filterMap_cons]; exact ih

theorem filterMap_id_map_some (S : List Cell) :
    List.filterMap id (S.map some) = S := by
  induction S with
  | nil => rfl
  | cons a t ih => rw [List.map_cons, List.filterMap_cons]; simp [ih]

/-- The column fold of `applyGravity` over a duplicate-free column list:
other columns are untouched, each listed column ends bottom-compacted with
its cells preserved in order, and the flag records exactly whether some
listed column changed. -/
theorem gravityFold_spec :
    ∀ (l : List Nat) (g : Grid) (m : Bool), l.Nodup →
      (∀ q : Pos, (∀ a ∈ l, q.1 ≠ (a : Int)) →
        (l.foldl (fun acc (c : Nat) =>
          ((gravityCol acc.1 (c : Int)).1,
           acc.2 || (gravityCol acc.1 (c : Int)).2)) (g, m)).1 q = g q) ∧
      (∀ a ∈ l,
        colSeg (l.foldl (fun acc (c : Nat) =>
          ((gravityCol acc.1 (c : Int)).1,
           acc.2 || (gravityCol acc.1 (c : Int)).2)) (g, m)).1 (a : Int) 0 =
          List.replicate (9 - ((colSeg g (a : Int) 0).filterMap id).length) none ++
            ((colSeg g (a : Int) 0).filterMap id).map some) ∧
      ((l.foldl (fun acc (c : Nat) =>
          ((gravityCol acc.1 (c : Int)).1,
           acc.2 || (gravityCol acc.1 (c : Int)).2)) (g, m)).2 = true ↔
        (m = true ∨ ∃ a ∈ l,
          colSeg g (a : Int) 0 ≠
            colSeg (l.foldl (fun acc (c : Nat) =>
              ((gravityCol acc.1 (c : Int)).1,
               acc.2 || (gravityCol acc.1 (c : Int)).2)) (g, m)).1 (a : Int) 0)) := by
  intro l
  induction l with
  | nil =>
    intro g m _
    refine ⟨fun q _ => rfl, by simp, by simp⟩
  | cons a t ih =>
    intro g m hnd
    rw [List.nodup_cons] at hnd
    obtain ⟨hat, hndt⟩ := hnd
    have hcol := gravityCol_spec g (a : Int)
    obtain ⟨ihframe, ihcol, ihflag⟩ :=
      ih (gravityCol g (a : Int)).1 (m || (gravityCol g (a : Int)).2) hndt
    have hstep : ∀ (x : Grid × Bool),
        (List.foldl (fun acc (c : Nat) =>
          ((gravityCol acc.1 (c : Int)).1,
           acc.2 || (gravityCol acc.1 (c : Int)).2)) x (a :: t)) =
        (List.foldl (fun acc (c : Nat) =>
          ((gravityCol acc.1 (c : Int)).1,
           acc.2 || (gravityCol acc.1 (c : Int)).2))
          ((gravityCol x.1 (a : Int)).1, x.2 || (gravityCol x.1 (a : Int)).2) t) :=
      fun x => rfl
    rw [hstep (g, m)]
    -- the `a` column is never touched again by the tail fold
    have hacol : ∀ r : Int,
        (t.foldl (fun acc (c : Nat) =>
          ((gravityCol acc.1 (c : Int)).1,
           acc.2 || (gravityCol acc.1 (c : Int)).2))
          ((gravityCol g (a : Int)).1, m || (gravityCol g (a : Int)).2)).1
          ((a : Int), r) = (gravityCol g (a : Int)).1 ((a : Int), r) := by
      intro r
      apply ihframe
      intro b hb he
      have : (a : Int) = (b : Int) := he
      have : a = b := by exact_mod_cast this
      exact hat (this ▸ hb)
    -- tail columns see the original grid
    have htcol : ∀ b ∈ t, colSeg (gravityCol g (a : Int)).1 (b : Int) 0 =
        colSeg g (b : Int) 0 := by
      intro b hb
      unfold colSeg
      refine List.map_congr_left fun j _ => ?_
      apply hcol.1
      intro he
      dsimp only at he
      have : b = a := by exact_mod_cast he
      exact hat (this ▸ hb)
    have haseg : colSeg (t.foldl (fun acc (c : Nat) =>
          ((gravityCol acc.1 (c : Int)).1,
           acc.2 || (gravityCol acc.1 (c : Int)).2))
          ((gravityCol g (a : Int)).1, m || (gravityCol g (a : Int)).2)).1
          (a : Int) 0 = colSeg (gravityCol g (a : Int)).1 (a : Int) 0 := by
      unfold colSeg
      exact List.map_congr_left fun j _ => hacol _
    refine ⟨?_, ?_, ?_⟩
    · intro q hq
      rw [ihframe q (fun b hb => hq b (List.mem_cons_of_mem _ hb))]
      exact hcol.1 q (hq a (List.mem_cons_self ..))
    · intro b hb
      rcases List.mem_cons.mp hb with rfl | hbt
      · rw [haseg]
        exact hcol.2.1
      · rw [ihcol b hbt, htcol b hbt]
    · rw [ihflag]
      rw [Bool.or_eq_true]
      constructor
      · rintro ((hm | hm) | ⟨b, hb, hne⟩)
        · exact Or.inl hm
        · refine Or.inr ⟨a, List.mem_cons_self .., ?_⟩
          rw [haseg]
          rw [hcol.2.2] at hm
          exact of_decide_eq_true hm
        · exact Or.inr ⟨b, List.mem_cons_of_mem _ hb, by rw [← htcol b hb]; exact hne⟩
      · rintro (hm | ⟨b, hb, hne⟩)
        · exact Or.inl (Or.inl hm)
        · rcases List.mem_cons.mp hb with rfl | hbt
          · refine Or.inl (Or.inr ?_)
            rw [hcol.2.2]
            apply decide_eq_true
            rw [← haseg]
            exact hne
          · exact Or.inr ⟨b, hbt, by rw [htcol b hbt]; exact hne⟩

theorem compact_isSome (S : List Cell) (j : Nat) (hj : j < 9)
    (hlen : S.length ≤ 9) (d : Option Cell) :
    (((List.replicate (9 - S.length) (none : Option Cell) ++ S.map some).getD j
      d).isSome = true) ↔ 9 - S.length ≤ j := by
  rw [List.getD_eq_getElem _ d (by simp [List.length_replicate]; omega)]
  rw [List.getElem_append]
  split_ifs with h
  · rw [List.length_replicate] at h
    rw [List.getElem_replicate]
    simp
    omega
  · rw [List.length_replicate] at h
    rw [List.getElem_map]
    simp
    omega

/-- C4: after `applyGravity`, in every column no `None` slot lies below a
non-`None` cell, the bottom-to-top sequence of cells in each column is
preserved with all fields intact, and the returned boolean is `true` iff at
least one cell changed position. -/
theorem applyGravity_spec (g : Grid) :
    (∀ c r1 r2 : Int, 0 ≤ c → c < 9 → 0 ≤ r1 → r1 ≤ r2 → r2 < 9 →
      ((applyGravity g).1 (c, r1)).isSome = true →
      ((applyGravity g).1 (c, r2)).isSome = true) ∧
    (∀ c : Int, 0 ≤ c → c < 9 →
      (colSeg (applyGravity g).1 c 0).filterMap id =
        (colSeg g c 0).filterMap id) ∧
    ((applyGravity g).2 = true ↔
      ∃ p ∈ allPositions, (applyGravity g).1 p ≠ g p) := by
  obtain ⟨hframe, hcols, hflag⟩ :=
    gravityFold_spec (List.range 9) g false (List.nodup_range 9)
  have hshapeC : ∀ c : Int, 0 ≤ c → c < 9 →
      colSeg (applyGravity g).1 c 0 =
        List.replicate (9 - ((colSeg g c 0).filterMap id).length) none ++
          ((colSeg g c 0).filterMap id).map some := by
    intro c h0 h9
    have hmem : c.toNat ∈ List.range 9 := by
      rw [List.mem_range]
      omega
    have hc := hcols c.toNat hmem
    have hcast : ((c.toNat : Nat) : Int) = c := by omega
    rw [hcast] at hc
    exact hc
  have hlenC : ∀ c : Int, ((colSeg g c 0).filterMap id).length ≤ 9 := by
    intro c
    have := List.length_filterMap_le (id : Option Cell → Option Cell)
      (colSeg g c 0)
    rw [colSeg_length] at this
    omega
  refine ⟨?_, ?_, ?_⟩
  · intro c r1 r2 hc0 hc9 hr1 hr12 hr2 hsome
    have e1 : ((r1.toNat : Nat) : Int) = r1 := by omega
    have e2 : ((r2.toNat : Nat) : Int) = r2 := by omega
    rw [← e1, ← colSeg_zero_getD (applyGravity g).1 c r1.toNat (by omega) none,
      hshapeC c hc0 hc9] at hsome
    rw [compact_isSome _ _ (by omega) (hlenC c)] at hsome
    rw [← e2, ← colSeg_zero_getD (applyGravity g).1 c r2.toNat (by omega) none,
      hshapeC c hc0 hc9]
    rw [compact_isSome _ _ (by omega) (hlenC c)]
    omega
  · intro c h0 h9
    rw [hshapeC c h0 h9, List.filterMap_append, filterMap_id_replicate_none,
      filterMap_id_map_some]
    rfl
  · have hAG : applyGravity g = (List.range 9).foldl
        (fun acc (c : Nat) =>
          ((gravityCol acc.1 (c : Int)).1,
           acc.2 || (gravityCol acc.1 (c : Int)).2)) (g, false) := rfl
    rw [hAG, hflag]
    simp only [Bool.false_eq_true, false_or]
    constructor
    · rintro ⟨a, ha, hne⟩
      rw [List.mem_range] at ha
      obtain ⟨j, hj, hne'⟩ := (colSeg_ne_iff _ _ _).mp hne
      refine ⟨((a : Int), (j : Int)), ?_, fun he => hne' he.symm⟩
      rw [mem_allPositions]
      dsimp only
      exact ⟨by positivity, by exact_mod_cast ha, by positivity,
        by exact_mod_cast hj⟩
    · rintro ⟨p, hp, hne⟩
      rw [mem_allPositions] at hp
      obtain ⟨h1, h2, h3, h4⟩ := hp
      refine ⟨p.1.toNat, by rw [List.mem_range]; omega, ?_⟩
      rw [colSeg_ne_iff]
      refine ⟨p.2.toNat, by omega, ?_⟩
      have e1 : ((p.1.toNat : Nat) : Int) = p.1 := by omega
      have e2 : ((p.2.toNat : Nat) : Int) = p.2 := by omega
      rw [e1, e2]
      intro he
      apply hne
      rw [show ((p.1, p.2) : Pos) = p from rfl] at he
      exact he.symm

/-- Witness for C4: gravity on the board with a hole at `(4,4)` moves cells,
keeps every column compacted, and reports `moved = true`. -/
theorem applyGravity_spec_witness :
    (((applyGravity gClearEx).1 ((4 : Int), (0 : Int))).isSome = true →
      ((applyGravity gClearEx).1 ((4 : Int), (8 : Int))).isSome = true) ∧
    (colSeg (applyGravity gClearEx).1 4 0).filterMap id =
      (colSeg gClearEx 4 0).filterMap id ∧
    ((applyGravity gClearEx).2 = true ↔
      ∃ p ∈ allPositions, (applyGravity gClearEx).1 p ≠ gClearEx p) := by
  have h := applyGravity_spec gClearEx
  exact ⟨fun hs => h.1 4 0 8 (by decide) (by decide) (by decide) (by decide)
      (by decide) hs,
    h.2.1 4 (by decide) (by decide), h.2.2⟩

-- ─── fillEmpty (board.js) ───────────────────────────────────────

/-- One slot of the `fillEmpty` scan (board.js): a `null` slot receives a
fresh cell whose color is the `k`-th random draw
(`Math.floor(Math.random() * numColors)`, modelled as
`randColor k % numColors`) and whose `special` is `multiplier` exactly when
the `k`-th 5%-draw `randMult k` hits; the position is appended to `filled`
(`k` counts the cells filled so far). -/
def fillStep (numColors : Nat) (randColor : Nat → Nat) (randMult : Nat → Bool)
    (acc : Grid × List Pos) (p : Pos) : Grid × List Pos :=
  match acc.1 p with
  | some _ => acc
  | none =>
      (update acc.1 p (some ⟨((randColor acc.2.length % numColors : Nat) : Int),
          if randMult acc.2.length then some Special.multiplier else none,
          none⟩),
       acc.2 ++ [p])

/-- The double `for` loop of `fillEmpty`: fill every `null` slot in scan
order, collecting the filled positions. -/
def fillScan (numColors : Nat) (randColor : Nat → Nat) (randMult : Nat → Bool)
    (g : Grid) : Grid × List Pos :=
  allPositions.foldl (fillStep numColors randColor randMult) (g, [])

/-- The bomb promotion of `fillEmpty`:
`grid[pick].special = 'bomb'; grid[pick].bombTimer = BOMB_INITIAL_TIMER`
at the picked position (a `null` pick leaves the grid unchanged; in the
source the pick is always occupied). -/
def placeBomb (gr : Grid) (q : Pos) : Grid :=
  match gr q with
  | some c =>
      update gr q (some ⟨c.colorIndex, some Special.bomb,
        some BOMB_INITIAL_TIMER⟩)
  | none => gr

/-- `fillEmpty(grid, cols, rows, numColors, spawnBomb)` from board.js: fill
every `null` slot, then, when `spawnBomb` is set and something was filled,
promote one random filled cell (`filled[Math.floor(Math.random() *
filled.length)]`, modelled by the draw `randPick` taken mod the length) to
a bomb.  Returns the grid and the filled list. -/
def fillEmpty (g : Grid) (numColors : Nat) (randColor : Nat → Nat)
    (randMult : Nat → Bool) (spawnBomb : Bool) (randPick : Nat) :
    Grid × List Pos :=
  if spawnBomb = true ∧ (fillScan numColors randColor randMult g).2 ≠ [] then
    (placeBomb (fillScan numColors randColor randMult g).1
      ((fillScan numColors randColor randMult g).2.getD
        (randPick % (fillScan numColors randColor randMult g).2.length) (0, 0)),
     (fillScan numColors randColor randMult g).2)
  else fillScan numColors randColor randMult g

/-- Behaviour of the `fillEmpty` scan over any duplicate-free position
list: the filled accumulator grows by exactly the previously-`null`
positions in scan order, unscanned and already-occupied positions keep
their cells, every scanned slot ends occupied, and a freshly filled slot
holds some fresh random cell (in particular neither a bomb nor a timer). -/
theorem fillStep_foldl_spec (numColors : Nat) (randColor : Nat → Nat)
    (randMult : Nat → Bool) (l : List Pos) :
    l.Nodup → ∀ (g : Grid) (fl : List Pos),
      ((l.foldl (fillStep numColors randColor randMult) (g, fl)).2
          = fl ++ l.filter (fun p => (g p).isNone)) ∧
      (∀ p : Pos, p ∉ l →
        (l.foldl (fillStep numColors randColor randMult) (g, fl)).1 p = g p) ∧
      (∀ p ∈ l, (g p).isSome = true →
        (l.foldl (fillStep numColors randColor randMult) (g, fl)).1 p = g p) ∧
      (∀ p ∈ l,
        ((l.foldl (fillStep numColors randColor randMult) (g, fl)).1 p).isSome
          = true) ∧
      (∀ p ∈ l, g p = none → ∃ k : Nat,
        (l.foldl (fillStep numColors randColor randMult) (g, fl)).1 p
          = some ⟨((randColor k % numColors : Nat) : Int),
              if randMult k then some Special.multiplier else none, none⟩) := by
  induction l with
  | nil => intro _ g fl; simp
  | cons a l ih =>
      intro hnd g fl
      rw [List.nodup_cons] at hnd
      obtain ⟨hal, hndl⟩ := hnd
      rw [List.foldl_cons]
      rcases hga : g a with _ | c
      · -- slot `a` is empty: it is filled and appended
        have hstep : fillStep numColors randColor randMult (g, fl) a
            = (update g a
                (some ⟨((randColor fl.length % numColors : Nat) : Int),
                  if randMult fl.length then some Special.multiplier else none,
                  none⟩), fl ++ [a]) := by
          unfold fillStep
          dsimp only
          rw [hga]
        rw [hstep]
        obtain ⟨ih1, ih2, ih3, ih4, ih5⟩ := ih hndl
          (update g a
            (some ⟨((randColor fl.length % numColors : Nat) : Int),
              if randMult fl.length then some Special.multiplier else none,
              none⟩)) (fl ++ [a])
        have hfeq : l.filter
              (fun p => ((update g a
                (some ⟨((randColor fl.length % numColors : Nat) : Int),
                  if randMult fl.length then some Special.multiplier else none,
                  none⟩)) p).isNone)
            = l.filter (fun p => (g p).isNone) := by
          refine List.filter_congr fun p hp => ?_
          rw [update_other _ _ _ _ (fun he => hal (by rw [← he]; exact hp))]
        refine ⟨?_, ?_, ?_, ?_, ?_⟩
        · rw [ih1, hfeq, List.filter_cons_of_pos (by rw [hga]; rfl),
            List.append_assoc]
          rfl
        · intro p hp
          rw [List.mem_cons, not_or] at hp
          rw [ih2 p hp.2, update_other _ _ _ _ hp.1]
        · intro p hp hps
          rcases List.mem_cons.mp hp with rfl | hpl
          · rw [hga] at hps; simp at hps
          · have hne : p ≠ a := fun he => hal (he ▸ hpl)
            rw [ih3 p hpl (by rw [update_other _ _ _ _ hne]; exact hps),
              update_other _ _ _ _ hne]
        · intro p hp
          rcases List.mem_cons.mp hp with rfl | hpl
          · rw [ih2 p hal, update_same]
            rfl
          · exact ih4 p hpl
        · intro p hp hpn
          rcases List.mem_cons.mp hp with rfl | hpl
          · exact ⟨fl.length, by rw [ih2 p hal, update_same]⟩
          · have hne : p ≠ a := fun he => hal (he ▸ hpl)
            exact ih5 p hpl (by rw [update_other _ _ _ _ hne]; exact hpn)
      · -- slot `a` is occupied: nothing happens
        have hstep : fillStep numColors randColor randMult (g, fl) a = (g, fl) := by
          unfold fillStep
          dsimp only
          rw [hga]
        rw [hstep]
        obtain ⟨ih1, ih2, ih3, ih4, ih5⟩ := ih hndl g fl
        refine ⟨?_, ?_, ?_, ?_, ?_⟩
        · rw [ih1, List.filter_cons_of_neg (by rw [hga]; exact Bool.noConfusion)]
        · intro p hp
          rw [List.mem_cons, not_or] at hp
          exact ih2 p hp.2
        · intro p hp hps
          rcases List.mem_cons.mp hp with rfl | hpl
          · exact ih2 p hal
          · exact ih3 p hpl hps
        · intro p hp
          rcases List.mem_cons.mp hp with rfl | hpl
          · rw [ih2 p hal, hga]
            rfl
          · exact ih4 p hpl
        · intro p hp hpn
          rcases List.mem_cons.mp hp with rfl | hpl
          · rw [hga] at hpn; exact Option.noConfusion hpn
          · exact ih5 p hpl hpn

/-- The scan order visits each board position exactly once. -/
theorem allPositions_nodup : allPositions.Nodup := by decide

/-- C5: after `fillEmpty` no empty slot remains on the board, the returned
list is exactly the scan-order list of previously empty positions, every
previously occupied cell is unchanged, and at most one bomb is introduced:
when `spawnBomb` is set and something was filled, exactly one filled cell
is a bomb, with `bombTimer = BOMB_INITIAL_TIMER = 15`; otherwise no filled
cell is a bomb. -/
theorem fillEmpty_spec (g : Grid) (numColors : Nat) (randColor : Nat → Nat)
    (randMult : Nat → Bool) (spawnBomb : Bool) (randPick : Nat) :
    (∀ p ∈ allPositions,
      ((fillEmpty g numColors randColor randMult spawnBomb randPick).1 p).isSome
        = true) ∧
    ((fillEmpty g numColors randColor randMult spawnBomb randPick).2
        = allPositions.filter (fun p => (g p).isNone)) ∧
    (∀ p : Pos, (g p).isSome = true →
      (fillEmpty g numColors randColor randMult spawnBomb randPick).1 p = g p) ∧
    (spawnBomb = true →
      (fillEmpty g numColors randColor randMult spawnBomb randPick).2 ≠ [] →
      ∃ q ∈ (fillEmpty g numColors randColor randMult spawnBomb randPick).2,
        (∃ c : Cell,
          (fillEmpty g numColors randColor randMult spawnBomb randPick).1 q
            = some c ∧ c.special = some Special.bomb ∧ c.bombTimer = some 15) ∧
        ∀ q' ∈ (fillEmpty g numColors randColor randMult spawnBomb randPick).2,
          (∃ c : Cell,
            (fillEmpty g numColors randColor randMult spawnBomb randPick).1 q'
              = some c ∧ c.special = some Special.bomb) → q' = q) ∧
    (¬(spawnBomb = true ∧
        (fillEmpty g numColors randColor randMult spawnBomb randPick).2 ≠ []) →
      ∀ q ∈ (fillEmpty g numColors randColor randMult spawnBomb randPick).2,
        ∀ c : Cell,
          (fillEmpty g numColors randColor randMult spawnBomb randPick).1 q
            = some c → c.special ≠ some Special.bomb) := by
  obtain ⟨h1, h2, h3, h4, h5⟩ := fillStep_foldl_spec numColors randColor randMult
    allPositions allPositions_nodup g []
  rw [List.nil_append] at h1
  have hfresh_not_bomb : ∀ q ∈ (fillScan numColors randColor randMult g).2,
      ∀ c : Cell, (fillScan numColors randColor randMult g).1 q = some c →
        c.special ≠ some Special.bomb := by
    intro q hq c hc
    rw [fillScan, h1, List.mem_filter] at hq
    obtain ⟨k, hk⟩ := h5 q hq.1 (Option.isNone_iff_eq_none.mp hq.2)
    rw [fillScan] at hc
    rw [hc] at hk
    obtain rfl := (Option.some.injEq _ _).mp hk
    dsimp only
    rcases hrm : randMult k with _ | _ <;> simp [hrm]
  by_cases hcond : spawnBomb = true ∧ (fillScan numColors randColor randMult g).2 ≠ []
  · -- bomb branch
    have hfe : fillEmpty g numColors randColor randMult spawnBomb randPick
        = (placeBomb (fillScan numColors randColor randMult g).1
            ((fillScan numColors randColor randMult g).2.getD
              (randPick % (fillScan numColors randColor randMult g).2.length)
              (0, 0)),
           (fillScan numColors randColor randMult g).2) := by
      rw [fillEmpty, if_pos hcond]
    obtain ⟨hsb, hne⟩ := hcond
    have hlen : 0 < (fillScan numColors randColor randMult g).2.length :=
      List.length_pos.mpr hne
    have hlt : randPick % (fillScan numColors randColor randMult g).2.length
        < (fillScan numColors randColor randMult g).2.length :=
      Nat.mod_lt _ hlen
    set q0 : Pos := (fillScan numColors randColor randMult g).2.getD
      (randPick % (fillScan numColors randColor randMult g).2.length) (0, 0)
      with hq0
    have hq0mem : q0 ∈ (fillScan numColors randColor randMult g).2 := by
      rw [hq0, List.getD_eq_getElem _ _ hlt]
      exact List.getElem_mem hlt
    have hq0filter := hq0mem
    rw [fillScan, h1, List.mem_filter] at hq0filter
    have hq0none : g q0 = none := Option.isNone_iff_eq_none.mp hq0filter.2
    obtain ⟨k0, hk0⟩ := h5 q0 hq0filter.1 hq0none
    have hpb : placeBomb (fillScan numColors randColor randMult g).1 q0
        = update (fillScan numColors randColor randMult g).1 q0
            (some ⟨((randColor k0 % numColors : Nat) : Int), some Special.bomb,
              some BOMB_INITIAL_TIMER⟩) := by
      rw [placeBomb, fillScan, hk0]
    refine ⟨?_, ?_, ?_, ?_, ?_⟩
    · intro p hp
      rw [hfe]
      dsimp only
      rw [hpb]
      by_cases hpq : p = q0
      · subst hpq
        rw [update_same]
        rfl
      · rw [update_other _ _ _ _ hpq]
        exact h4 p hp
    · rw [hfe]
      exact h1
    · intro p hps
      rw [hfe]
      dsimp only
      rw [hpb]
      have hpq : p ≠ q0 := by
        intro he
        rw [he, hq0none] at hps
        exact Bool.noConfusion hps
      rw [update_other _ _ _ _ hpq]
      by_cases hpall : p ∈ allPositions
      · exact h3 p hpall hps
      · exact h2 p hpall
    · intro _ _
      refine ⟨q0, by rw [hfe]; exact hq0mem, ?_, ?_⟩
      · refine ⟨⟨((randColor k0 % numColors : Nat) : Int), some Special.bomb,
          some BOMB_INITIAL_TIMER⟩, ?_, rfl, rfl⟩
        rw [hfe]
        dsimp only
        rw [hpb, update_same]
      · intro q' hq' hbad
        rw [hfe] at hq'
        dsimp only at hq'
        by_contra hqq
        obtain ⟨c, hc, hcs⟩ := hbad
        rw [hfe] at hc
        dsimp only at hc
        rw [hpb, update_other _ _ _ _ hqq] at hc
        exact hfresh_not_bomb q' hq' c hc hcs
    · intro hno
      exact absurd ⟨hsb, by rw [hfe]; exact hne⟩ hno
  · -- no-bomb branch
    have hfe : fillEmpty g numColors randColor randMult spawnBomb randPick
        = fillScan numColors randColor randMult g := by
      rw [fillEmpty, if_neg hcond]
    refine ⟨?_, ?_, ?_, ?_, ?_⟩
    · intro p hp
      rw [hfe, fillScan]
      exact h4 p hp
    · rw [hfe, fillScan]
      exact h1
    · intro p hps
      rw [hfe, fillScan]
      by_cases hpall : p ∈ allPositions
      · exact h3 p hpall hps
      · exact h2 p hpall
    · intro hsb hne
      rw [hfe] at hne
      exact absurd ⟨hsb, hne⟩ hcond
    · intro _ q hq c hc
      rw [hfe] at hq hc
      exact hfresh_not_bomb q hq c hc

set_option maxRecDepth 100000 in
/-- Witness for C5: on the board with a single hole at `(4,4)`, a refill
with `spawnBomb` set fills that hole and promotes exactly one filled cell
to a bomb with timer 15. -/
theorem fillEmpty_spec_witness :
    ∃ q ∈ (fillEmpty gClearEx 5 (fun _ => 2) (fun _ => false) true 0).2,
      (∃ c : Cell,
        (fillEmpty gClearEx 5 (fun _ => 2) (fun _ => false) true 0).1 q
          = some c ∧ c.special = some Special.bomb ∧ c.bombTimer = some 15) ∧
      ∀ q' ∈ (fillEmpty gClearEx 5 (fun _ => 2) (fun _ => false) true 0).2,
        (∃ c : Cell,
          (fillEmpty gClearEx 5 (fun _ => 2) (fun _ => false) true 0).1 q'
            = some c ∧ c.special = some Special.bomb) → q' = q := by
  have h := fillEmpty_spec gClearEx 5 (fun _ => 2) (fun _ => false) true 0
  exact h.2.2.2.1 rfl (by rw [h.2.1]; decide)

-- ════════════════════════════════════════════════════════════════
-- C1: the rotate-and-test loop of animateRotation (main.js)
-- ════════════════════════════════════════════════════════════════

/-- The player's selection kinds of main.js: a 3-hex cluster
(`selectedCluster`), a starflower ring (`flowerCenter`), or a black-pearl
Y (`pearlCenter`). -/
inductive Selection where
  | cluster (cl : List Pos)
  | ring (center : Pos)
  | y (center : Pos)

/-- One animation step's grid effect (main.js lines 555–561): the ring
branch rotates `getNeighbors(center)`, the Y branch rotates the alternate
neighbors, the cluster branch rotates the 3 selected hexes. -/
def rotationStep (g : Grid) (sel : Selection) (cw : Bool) : Grid :=
  match sel with
  | .cluster cl => rotateCluster g cl cw
  | .ring c => rotateRing g (getNeighbors c.1 c.2) cw
  | .y c => rotateY g c cw

/-- `maxSteps` as computed by main.js lines 550–551:
`let maxSteps = 3; if (flowerCenter) maxSteps = 1;` — the ring selection
gets 1, every other selection 3. -/
def maxStepsOf : Selection → Nat
  | .cluster _ => 3
  | .ring _ => 1
  | .y _ => 3

/-- The `for (step …)` body of `animateRotation` (main.js lines 553–579):
rotate one step, then run `findMatchesForMode` (`matchTriangle` selects the
triangle matcher), `detectStarflowers`, and `detectBlackPearls` — the two
detectors mutate the board in place.  Stop with a hit as soon as any of the
three finds something; otherwise keep stepping until the fuel (`maxSteps`)
is exhausted, returning the final board and `false`. -/
def rotationLoop (matchTriangle : Bool) (sel : Selection) (cw : Bool) :
    Nat → Grid → Grid × Bool
  | 0, g => (g, false)
  | fuel + 1, g =>
      let g1 := rotationStep g sel cw
      let ms := if matchTriangle then findTriangleMatches g1 else findMatches g1
      let sf := detectStarflowers g1
      let bp := detectBlackPearls sf.1
      if ms ≠ [] ∨ sf.2 ≠ [] ∨ bp.2 ≠ [] then (bp.1, true)
      else rotationLoop matchTriangle sel cw fuel bp.1

/-- The grid-data effect of `animateRotation(clockwise)`: run the
rotate-and-test loop for the `maxSteps` of the current selection.  The
boolean records whether the loop stopped on a hit. -/
def animateRotationData (matchTriangle : Bool) (g : Grid) (sel : Selection)
    (cw : Bool) : Grid × Bool :=
  rotationLoop matchTriangle sel cw (maxStepsOf sel) g

/-- Color table (column-major, index `9*col + row`) of a concrete quiet
board: no line match, no starflower birth and no pearl birth exists either
before or after one clockwise ring step around `(4,4)`. -/
def ringBugColors : List Int :=
  [0, 4, 4, 1, 4, 2, 1, 1, 0,
   2, 2, 0, 1, 2, 2, 3, 3, 1,
   1, 0, 3, 4, 0, 4, 4, 1, 4,
   2, 1, 0, 0, 4, 3, 0, 3, 1,
   1, 2, 3, 4, 4, 2, 2, 4, 2,
   3, 3, 0, 2, 4, 3, 2, 1, 2,
   4, 2, 3, 2, 2, 0, 0, 4, 4,
   4, 1, 4, 0, 3, 4, 0, 2, 4,
   2, 1, 2, 1, 0, 2, 1, 4, 0]

/-- The quiet board: a starflower at `(4,4)` (a Ring selection whose six
neighbors are all in bounds) amid ordinary colored tiles. -/
def gRingBug : Grid := fun p =>
  if p = ((4 : Int), (4 : Int)) then some ⟨-1, some Special.starflower, none⟩
  else if inBounds p then
    some ⟨ringBugColors.getD (9 * p.1.toNat + p.2.toNat) 0, none, none⟩
  else none

set_option maxRecDepth 1000000 in
/-- C1 (code bug): the spec — and the code's own comment — call for 6
rotate-and-test steps on a Ring selection, so that a hit-free rotation
returns the board to its pre-rotation state.  The code instead sets
`maxSteps = 1` whenever `flowerCenter` is set, so on the quiet board
`gRingBug` the loop around the starflower at `(4,4)` finishes with no hit
(`false`) yet leaves the board rotated one step: the ring cell `(5,4)`
no longer holds its pre-rotation cell. -/
theorem ring_rotation_single_step_bug :
    maxStepsOf (Selection.ring ((4 : Int), (4 : Int))) = 1 ∧
    (animateRotationData false gRingBug
        (Selection.ring ((4 : Int), (4 : Int))) true).2 = false ∧
    (animateRotationData false gRingBug
        (Selection.ring ((4 : Int), (4 : Int))) true).1 ((5 : Int), (4 : Int))
      ≠ gRingBug ((5 : Int), (4 : Int)) := by
  refine ⟨rfl, ?_, ?_⟩
  · decide
  · decide

end Hecknsic
